import Mathlib

/-!
# Verification of the thrusftp SFTP-v3 server against its specification

This file gives a shallow embedding, in Lean 4, of the parts of the
thrusftp code base that the specification talks about:

* the hand-written wire decoder `SftpClientPacket::from_bytes`
  (`src/thrusftp/src/protocol.rs`), embedded in namespace `Wire`;
* the derive-style codec — the `Serialize`/`Deserialize` impls of
  `src/thrusftp-protocol/src/parse.rs` together with the code generated by
  `src/bin-ser/src/lib.rs` for the packet types of
  `src/thrusftp/src/types.rs` — embedded in namespace `Derived`;
* the request engine `SftpServer::process_internal`
  (`src/thrusftp-server/src/lib.rs`) together with the handle table, embedded
  in namespace `Engine`, parameterized over a backend oracle mirroring the
  `Fs` trait of `src/thrusftp-protocol/src/lib.rs`;
* the `LocalFs::rename` / `LocalFs::posix_rename` destination pre-check of
  `src/thrusftp/src/fs.rs`.

Rust machine integers are modelled as `Nat` (all values produced by the
embedded serializers are `< 2^32` resp. `< 2^64` where it matters, and the
deserializers reconstruct exactly the big-endian value).  Rust byte buffers
are `List Nat`; Rust `String` contents are modelled by their UTF-8 byte
sequence (`List Nat`) on the wire side, and by Lean `String` on the engine
side where only concatenation and equality of handles matter.  A Rust
`panic!` or out-of-bounds slice index is a distinguished failure
constructor, kept separate from recoverable `Err` results.
-/

namespace Thrusftp

/-- Decidable equality on `Except`, so that concrete runs of the embedded
decoders can be checked by `decide`. -/
instance {ε α : Type _} [DecidableEq ε] [DecidableEq α] : DecidableEq (Except ε α) := fun a b =>
  match a, b with
  | .ok a, .ok b => decidable_of_iff (a = b) (by simp)
  | .error a, .error b => decidable_of_iff (a = b) (by simp)
  | .ok _, .error _ => isFalse (by simp)
  | .error _, .ok _ => isFalse (by simp)

/-! ## Big-endian integer encoding (`to_be_bytes` / `from_be_bytes`) -/

/-- The four big-endian bytes of a `u32` value, as in `u32::to_be_bytes`. -/
def u32be (n : Nat) : List Nat :=
  [n / 2 ^ 24 % 256, n / 2 ^ 16 % 256, n / 2 ^ 8 % 256, n % 256]

/-- The eight big-endian bytes of a `u64` value, as in `u64::to_be_bytes`. -/
def u64be (n : Nat) : List Nat :=
  [n / 2 ^ 56 % 256, n / 2 ^ 48 % 256, n / 2 ^ 40 % 256, n / 2 ^ 32 % 256,
   n / 2 ^ 24 % 256, n / 2 ^ 16 % 256, n / 2 ^ 8 % 256, n % 256]

/-- Big-endian value of a byte list, as in `from_be_bytes`. -/
def beVal (l : List Nat) : Nat :=
  l.foldl (fun a b => a * 256 + b) 0

@[simp] theorem u32be_length (n : Nat) : (u32be n).length = 4 := rfl

@[simp] theorem u64be_length (n : Nat) : (u64be n).length = 8 := rfl

theorem beVal_u32be (n : Nat) (h : n < 2 ^ 32) : beVal (u32be n) = n := by
  simp only [u32be, beVal, List.foldl]
  omega

theorem beVal_u64be (n : Nat) (h : n < 2 ^ 64) : beVal (u64be n) = n := by
  simp only [u64be, beVal, List.foldl]
  omega

/-! ## UTF-8 validation, as performed by Rust's `String::from_utf8` -/

/-- A UTF-8 continuation byte (`0x80..=0xBF`). -/
def isCont (b : Nat) : Bool := 0x80 ≤ b && b ≤ 0xBF

/-- Validity of a byte sequence as UTF-8, following the byte-range table used
by Rust's `core::str` validation (RFC 3629). -/
def validUtf8 : List Nat → Bool
  | [] => true
  | b :: rest =>
    if b ≤ 0x7F then validUtf8 rest
    else if 0xC2 ≤ b && b ≤ 0xDF then
      match rest with
      | c1 :: r => isCont c1 && validUtf8 r
      | [] => false
    else if b = 0xE0 then
      match rest with
      | c1 :: c2 :: r => (0xA0 ≤ c1 && c1 ≤ 0xBF) && isCont c2 && validUtf8 r
      | _ => false
    else if (0xE1 ≤ b && b ≤ 0xEC) || b = 0xEE || b = 0xEF then
      match rest with
      | c1 :: c2 :: r => isCont c1 && isCont c2 && validUtf8 r
      | _ => false
    else if b = 0xED then
      match rest with
      | c1 :: c2 :: r => (0x80 ≤ c1 && c1 ≤ 0x9F) && isCont c2 && validUtf8 r
      | _ => false
    else if b = 0xF0 then
      match rest with
      | c1 :: c2 :: c3 :: r =>
        (0x90 ≤ c1 && c1 ≤ 0xBF) && isCont c2 && isCont c3 && validUtf8 r
      | _ => false
    else if 0xF1 ≤ b && b ≤ 0xF3 then
      match rest with
      | c1 :: c2 :: c3 :: r => isCont c1 && isCont c2 && isCont c3 && validUtf8 r
      | _ => false
    else if b = 0xF4 then
      match rest with
      | c1 :: c2 :: c3 :: r =>
        (0x80 ≤ c1 && c1 ≤ 0x8F) && isCont c2 && isCont c3 && validUtf8 r
      | _ => false
    else false

/-- ASCII strings are valid UTF-8 byte by byte; `ascii` gives the UTF-8 bytes
of an ASCII Lean string literal (code point = byte). -/
def ascii (s : String) : List Nat := s.data.map Char.toNat

theorem validUtf8_ascii_statvfs : validUtf8 (ascii "statvfs@openssh.com") = true := by
  decide

/-- The wire form of a string or byte blob: `u32` length prefix followed by
the raw bytes (`impl Serialize for String` / `VecU8`). -/
def serString (s : List Nat) : List Nat := u32be s.length ++ s

/-! ## Injectivity of `Nat.repr`

The handle-allocation loop of the engine builds candidate handles with
`format!("{}{}", path, num)`, i.e. `path ++ Nat.repr num` in the embedding.
To reason about it (termination of the search, distinctness of candidates)
we prove that `Nat.repr` is injective, via a verified decimal reader. -/

/-- Value of a decimal digit character, partial inverse of `Nat.digitChar`. -/
def decDigitVal (c : Char) : Nat :=
  if c = '0' then 0 else if c = '1' then 1 else if c = '2' then 2 else
  if c = '3' then 3 else if c = '4' then 4 else if c = '5' then 5 else
  if c = '6' then 6 else if c = '7' then 7 else if c = '8' then 8 else
  if c = '9' then 9 else 0

/-- Read back a decimal digit string produced by `Nat.toDigits 10`. -/
def readDec (l : List Char) : Nat :=
  l.foldl (fun a c => 10 * a + decDigitVal c) 0

theorem decDigitVal_digitChar (d : Nat) (h : d < 10) :
    decDigitVal (Nat.digitChar d) = d := by
  interval_cases d <;> rfl

theorem readDec_append (l₁ l₂ : List Char) :
    readDec (l₁ ++ l₂) = l₂.foldl (fun a c => 10 * a + decDigitVal c) (readDec l₁) := by
  simp [readDec, List.foldl_append]

theorem toDigitsCore_acc (b fuel : Nat) :
    ∀ (n : Nat) (ds : List Char),
      Nat.toDigitsCore b fuel n ds = Nat.toDigitsCore b fuel n [] ++ ds := by
  induction fuel with
  | zero => intro n ds; simp [Nat.toDigitsCore]
  | succ fuel ih =>
    intro n ds
    simp only [Nat.toDigitsCore]
    by_cases h : n / b = 0
    · simp [h]
    · simp only [h, if_false]
      rw [ih (n / b) (Nat.digitChar (n % b) :: ds),
          ih (n / b) (Nat.digitChar (n % b) :: [])]
      simp

theorem readDec_toDigitsCore (fuel : Nat) :
    ∀ n : Nat, n < fuel → readDec (Nat.toDigitsCore 10 fuel n []) = n := by
  induction fuel with
  | zero => intro n h; omega
  | succ fuel ih =>
    intro n h
    simp only [Nat.toDigitsCore]
    by_cases hdiv : n / 10 = 0
    · have hn : n < 10 := by omega
      simp only [hdiv, if_true]
      have : n % 10 = n := Nat.mod_eq_of_lt hn
      simp [readDec, this, decDigitVal_digitChar n hn]
    · simp only [hdiv, if_false]
      rw [toDigitsCore_acc]
      rw [readDec_append]
      have h1 : n / 10 < fuel := by
        have h2 : n / 10 < n := Nat.div_lt_self (by omega) (by omega)
        omega
      rw [ih (n / 10) h1]
      simp [decDigitVal_digitChar (n % 10) (Nat.mod_lt n (by omega))]
      omega

theorem readDec_toDigits (n : Nat) : readDec (Nat.toDigits 10 n) = n :=
  readDec_toDigitsCore (n + 1) n (Nat.lt_succ_self n)

theorem natRepr_injective : Function.Injective Nat.repr := by
  intro m n h
  have hd : Nat.toDigits 10 m = Nat.toDigits 10 n := by
    have : (Nat.toDigits 10 m).asString.data = (Nat.toDigits 10 n).asString.data := by
      rw [show (Nat.toDigits 10 m).asString = (Nat.toDigits 10 n).asString from h]
    simpa [List.asString] using this
  calc m = readDec (Nat.toDigits 10 m) := (readDec_toDigits m).symm
    _ = readDec (Nat.toDigits 10 n) := by rw [hd]
    _ = n := readDec_toDigits n

/-- Candidate handles built from the same prefix and different counters are
different strings. -/
theorem append_repr_injective (pre : String) :
    Function.Injective (fun n : Nat => pre ++ Nat.repr n) := by
  intro m n h
  apply natRepr_injective
  apply String.ext
  have := congrArg String.data h
  simpa [String.data_append] using this

/-! ## The hand-written wire decoder (`src/thrusftp/src/protocol.rs`)

`SftpClientPacket::from_bytes` parses one length-delimited frame with the
`read_u8!`/`read_u32!`/`read_u64!`/`read_string!`/`read_attrs!` macros.
Those macros index into the remaining slice and therefore *panic* (Rust
process abort, not a recoverable `Err`) when too few bytes remain; that
outcome is modelled by `WireFailure.panicked`, kept distinct from the
recoverable `ProtocolError` results. -/

namespace Wire

/-- `enum ProtocolError` of `protocol.rs`. -/
inductive ProtocolError where
  | UnknownCommand
  | InvalidUtf8
  | InvalidLength
  | IncompleteBuffer
  | NoSuchHandle
  deriving DecidableEq, Repr

/-- Outcome of running decoding code: a recoverable protocol error, or a
Rust panic (out-of-bounds slice index). -/
inductive WireFailure where
  | protocol (e : ProtocolError)
  | panicked
  deriving DecidableEq, Repr

/-- `read_u8!`: take the first byte, panicking on an empty slice. -/
def readU8 : List Nat → Except WireFailure (Nat × List Nat)
  | [] => .error .panicked
  | b :: rest => .ok (b, rest)

/-- `read_u32!`: 4 big-endian bytes, panicking when fewer remain. -/
def readU32 (l : List Nat) : Except WireFailure (Nat × List Nat) :=
  if l.length < 4 then .error .panicked
  else .ok (beVal (l.take 4), l.drop 4)

/-- `read_u64!`: 8 big-endian bytes, panicking when fewer remain. -/
def readU64 (l : List Nat) : Except WireFailure (Nat × List Nat) :=
  if l.length < 8 then .error .panicked
  else .ok (beVal (l.take 8), l.drop 8)

/-- `read_string!`: `u32` length, then that many bytes, validated as UTF-8
(`String::from_utf8`, surfacing `ProtocolError::InvalidUtf8`). -/
def readString (l : List Nat) : Except WireFailure (List Nat × List Nat) := do
  let (len, rest) ← readU32 l
  if rest.length < len then .error .panicked
  else
    let bytes := rest.take len
    if validUtf8 bytes then .ok (bytes, rest.drop len)
    else .error (.protocol .InvalidUtf8)

/-- `struct Pflags` of `protocol.rs`. -/
structure Pflags where
  read : Bool
  write : Bool
  append : Bool
  creat : Bool
  trunc : Bool
  excl : Bool
  deriving DecidableEq, Repr

/-- `impl From<u32> for Pflags`: bit tests against `0b1 … 0b100000`. -/
def pflagsOfU32 (num : Nat) : Pflags :=
  { read := num.testBit 0, write := num.testBit 1, append := num.testBit 2,
    creat := num.testBit 3, trunc := num.testBit 4, excl := num.testBit 5 }

/-- `struct Attrsflags` of `protocol.rs`. -/
structure Attrsflags where
  size : Bool
  uidgid : Bool
  permissions : Bool
  acmodtime : Bool
  extended : Bool
  deriving DecidableEq, Repr

/-- `impl From<u32> for Attrsflags`: bits `0x1, 0x2, 0x4, 0x8, 0x80000000`. -/
def attrsflagsOfU32 (num : Nat) : Attrsflags :=
  { size := num.testBit 0, uidgid := num.testBit 1, permissions := num.testBit 2,
    acmodtime := num.testBit 3, extended := num.testBit 31 }

/-- `struct ExtendedAttr`: a `(type, data)` string pair. -/
structure ExtendedAttr where
  type : List Nat
  data : List Nat
  deriving DecidableEq, Repr

/-- `struct Attrs` of `protocol.rs` (strings as UTF-8 byte lists). -/
structure Attrs where
  size : Option Nat := none
  uid_gid : Option (Nat × Nat) := none
  permissions : Option Nat := none
  atime_mtime : Option (Nat × Nat) := none
  extended_attrs : List ExtendedAttr := []
  deriving DecidableEq, Repr

/-- The extended-attribute loop inside `read_attrs!`: `len` repetitions of
two `read_string!`s. -/
def readExtendedAttrs : Nat → List Nat → Except WireFailure (List ExtendedAttr × List Nat)
  | 0, l => .ok ([], l)
  | n + 1, l => do
    let (ty, l) ← readString l
    let (da, l) ← readString l
    let (rest, l) ← readExtendedAttrs n l
    .ok (⟨ty, da⟩ :: rest, l)

/-- `read_attrs!`: flags word, then the flag-gated fields in order. -/
def readAttrs (l : List Nat) : Except WireFailure (Attrs × List Nat) := do
  let (num, l) ← readU32 l
  let flags := attrsflagsOfU32 num
  let (size, l) ←
    if flags.size then do
      let (v, l) ← readU64 l
      pure (some v, l)
    else pure ((none : Option Nat), l)
  let (uid_gid, l) ←
    if flags.uidgid then do
      let (u, l) ← readU32 l
      let (g, l) ← readU32 l
      pure (some (u, g), l)
    else pure ((none : Option (Nat × Nat)), l)
  let (permissions, l) ←
    if flags.permissions then do
      let (v, l) ← readU32 l
      pure (some v, l)
    else pure ((none : Option Nat), l)
  let (atime_mtime, l) ←
    if flags.acmodtime then do
      let (a, l) ← readU32 l
      let (m, l) ← readU32 l
      pure (some (a, m), l)
    else pure ((none : Option (Nat × Nat)), l)
  let (extended_attrs, l) ←
    if flags.extended then do
      let (len, l) ← readU32 l
      readExtendedAttrs len l
    else pure (([] : List ExtendedAttr), l)
  .ok ({ size, uid_gid, permissions, atime_mtime, extended_attrs }, l)

/-- `struct Extension`: a `(name, data)` string pair of the Init packet. -/
structure Extension where
  name : List Nat
  data : List Nat
  deriving DecidableEq, Repr

/-- `enum SftpClientPacket` of `protocol.rs` (strings as UTF-8 byte lists;
`Extended` carries the raw extension name and remaining payload). -/
inductive SftpClientPacket where
  | Init (version : Nat) (extensions : List Extension)
  | Open (id : Nat) (filename : List Nat) (pflags : Pflags) (attrs : Attrs)
  | Close (id : Nat) (handle : List Nat)
  | Read (id : Nat) (handle : List Nat) (offset : Nat) (len : Nat)
  | Write (id : Nat) (handle : List Nat) (offset : Nat) (data : List Nat)
  | Lstat (id : Nat) (path : List Nat)
  | Fstat (id : Nat) (handle : List Nat)
  | Setstat (id : Nat) (path : List Nat) (attrs : Attrs)
  | Fsetstat (id : Nat) (handle : List Nat) (attrs : Attrs)
  | Opendir (id : Nat) (path : List Nat)
  | Readdir (id : Nat) (handle : List Nat)
  | Remove (id : Nat) (filename : List Nat)
  | Mkdir (id : Nat) (path : List Nat) (attrs : Attrs)
  | Rmdir (id : Nat) (path : List Nat)
  | Realpath (id : Nat) (path : List Nat)
  | Stat (id : Nat) (path : List Nat)
  | Rename (id : Nat) (oldpath : List Nat) (newpath : List Nat)
  | Readlink (id : Nat) (path : List Nat)
  | Symlink (id : Nat) (linkpath : List Nat) (targetpath : List Nat)
  | Extended (id : Nat) (extended_request : List Nat) (data : List Nat)
  deriving DecidableEq, Repr

/-- The Init arm's `while data.len() > 0 { strings.push(read_string!(data)) }`
loop, with fuel bounding the iteration count (each iteration consumes at
least the 4 length bytes, so `l.length + 1` iterations always suffice). -/
def readStringsEos : Nat → List Nat → Except WireFailure (List (List Nat) × List Nat)
  | _, [] => .ok ([], [])
  | 0, _ => .error .panicked
  | fuel + 1, l => do
    let (s, l) ← readString l
    let (rest, l') ← readStringsEos fuel l
    .ok (s :: rest, l')

/-- `strings.chunks_exact(2)` followed by pairing into `Extension`s: a
trailing unpaired string is dropped. -/
def chunkPairs : List (List Nat) → List Extension
  | a :: b :: rest => ⟨a, b⟩ :: chunkPairs rest
  | _ => []

/-- The per-opcode body of `SftpClientPacket::from_bytes`: everything after
the `u8` command byte has been read, operating inside the declared frame. -/
def parseBody (command : Nat) (l : List Nat) :
    Except WireFailure (SftpClientPacket × List Nat) :=
  if command = 1 then do
    let (version, l) ← readU32 l
    let (strings, l) ← readStringsEos (l.length + 1) l
    .ok (.Init version (chunkPairs strings), l)
  else if command = 3 then do
    let (id, l) ← readU32 l
    let (filename, l) ← readString l
    let (pf, l) ← readU32 l
    let (attrs, l) ← readAttrs l
    .ok (.Open id filename (pflagsOfU32 pf) attrs, l)
  else if command = 4 then do
    let (id, l) ← readU32 l
    let (handle, l) ← readString l
    .ok (.Close id handle, l)
  else if command = 5 then do
    let (id, l) ← readU32 l
    let (handle, l) ← readString l
    let (offset, l) ← readU64 l
    let (len, l) ← readU32 l
    .ok (.Read id handle offset len, l)
  else if command = 6 then do
    let (id, l) ← readU32 l
    let (handle, l) ← readString l
    let (offset, l) ← readU64 l
    let (len, l) ← readU32 l
    if l.length < len then .error .panicked
    else .ok (.Write id handle offset (l.take len), l.drop len)
  else if command = 7 then do
    let (id, l) ← readU32 l
    let (path, l) ← readString l
    .ok (.Lstat id path, l)
  else if command = 8 then do
    let (id, l) ← readU32 l
    let (handle, l) ← readString l
    .ok (.Fstat id handle, l)
  else if command = 9 then do
    let (id, l) ← readU32 l
    let (path, l) ← readString l
    let (attrs, l) ← readAttrs l
    .ok (.Setstat id path attrs, l)
  else if command = 10 then do
    let (id, l) ← readU32 l
    let (handle, l) ← readString l
    let (attrs, l) ← readAttrs l
    .ok (.Fsetstat id handle attrs, l)
  else if command = 11 then do
    let (id, l) ← readU32 l
    let (path, l) ← readString l
    .ok (.Opendir id path, l)
  else if command = 12 then do
    let (id, l) ← readU32 l
    let (handle, l) ← readString l
    .ok (.Readdir id handle, l)
  else if command = 13 then do
    let (id, l) ← readU32 l
    let (filename, l) ← readString l
    .ok (.Remove id filename, l)
  else if command = 14 then do
    let (id, l) ← readU32 l
    let (path, l) ← readString l
    let (attrs, l) ← readAttrs l
    .ok (.Mkdir id path attrs, l)
  else if command = 15 then do
    let (id, l) ← readU32 l
    let (path, l) ← readString l
    .ok (.Rmdir id path, l)
  else if command = 16 then do
    let (id, l) ← readU32 l
    let (path, l) ← readString l
    .ok (.Realpath id path, l)
  else if command = 17 then do
    let (id, l) ← readU32 l
    let (path, l) ← readString l
    .ok (.Stat id path, l)
  else if command = 18 then do
    let (id, l) ← readU32 l
    let (oldpath, l) ← readString l
    let (newpath, l) ← readString l
    .ok (.Rename id oldpath newpath, l)
  else if command = 19 then do
    let (id, l) ← readU32 l
    let (path, l) ← readString l
    .ok (.Readlink id path, l)
  else if command = 20 then do
    let (id, l) ← readU32 l
    -- these are switched in the source, to imitate the historical
    -- openssh sftp-server behaviour: target path is read first
    let (targetpath, l) ← readString l
    let (linkpath, l) ← readString l
    .ok (.Symlink id linkpath targetpath, l)
  else if command = 200 then do
    let (id, l) ← readU32 l
    let (extended_request, l) ← readString l
    .ok (.Extended id extended_request l, [])
  else .error (.protocol .UnknownCommand)

/-- Command byte plus per-opcode body: the packet-shaped part of
`from_bytes`, run against the truncated frame payload. -/
def parsePacket (data : List Nat) : Except WireFailure (SftpClientPacket × List Nat) := do
  let (command, data) ← readU8 data
  parseBody command data

/-- `SftpClientPacket::from_bytes`: length prefix, truncation of the buffer
to the declared frame, opcode dispatch, and the final
`data.len() == 0` / `InvalidLength` check. -/
def from_bytes (b : List Nat) : Except WireFailure SftpClientPacket :=
  if b.length < 4 then .error (.protocol .IncompleteBuffer)
  else
    let len := beVal (b.take 4)
    let rest := b.drop 4
    if rest.length < len then .error (.protocol .IncompleteBuffer)
    else
      match parsePacket (rest.take len) with
      | .error e => .error e
      | .ok (pkt, remaining) =>
        if remaining.length = 0 then .ok pkt
        else .error (.protocol .InvalidLength)

end Wire

/-! ## The derive-style codec

`src/thrusftp/src/types.rs` declares the packet model with
`#[derive(Serialize, Deserialize)]`; `src/bin-ser/src/lib.rs` generates,
for a struct, field-by-field (de)serialization in declaration order, and
for an enum, the discriminant in its `repr` followed by the matched
variant's fields — with `panic!("unknown enum variant")` on an unmatched
discriminant.  The primitive impls are those of
`src/thrusftp-protocol/src/parse.rs`; in particular
`impl Deserialize for VecU8` reads the length prefix and the bytes but
never advances the input slice past the bytes, and
`impl Deserialize for ExtendedRequestType` has
`panic!("unexpected extended request")` for an unrecognized extension
name.  Panics are modelled as distinguished failure constructors. -/

namespace Derived

/-- Failure outcomes of the derived deserializers: Rust panics (slice
index out of bounds, the two explicit `panic!`s) and the recoverable
invalid-UTF-8 `Err`. -/
inductive DFailure where
  | panicIndex
  | panicUnknownEnumVariant
  | panicUnexpectedExtendedRequest
  | errUtf8
  deriving DecidableEq, Repr

/-- `impl Deserialize for u8`. -/
def dU8 : List Nat → Except DFailure (Nat × List Nat)
  | [] => .error .panicIndex
  | b :: rest => .ok (b, rest)

/-- `impl Deserialize for u32`. -/
def dU32 (l : List Nat) : Except DFailure (Nat × List Nat) :=
  if l.length < 4 then .error .panicIndex
  else .ok (beVal (l.take 4), l.drop 4)

/-- `impl Deserialize for u64`. -/
def dU64 (l : List Nat) : Except DFailure (Nat × List Nat) :=
  if l.length < 8 then .error .panicIndex
  else .ok (beVal (l.take 8), l.drop 8)

/-- `impl Deserialize for String`: length prefix, UTF-8 validation
(`String::from_utf8(..)?`, a recoverable error), advancing past the
string bytes. -/
def dString (l : List Nat) : Except DFailure (List Nat × List Nat) := do
  let (len, rest) ← dU32 l
  if rest.length < len then .error .panicIndex
  else if validUtf8 (rest.take len) then .ok (rest.take len, rest.drop len)
  else .error .errUtf8

/-- `impl Deserialize for VecU8`: reads the length prefix and copies
`input[..len]`, but — unlike every sibling impl — never advances the
input slice past the copied bytes. -/
def dVecU8 (l : List Nat) : Except DFailure (List Nat × List Nat) := do
  let (len, rest) ← dU32 l
  if rest.length < len then .error .panicIndex
  else .ok (rest.take len, rest)

/-- `impl<T> Deserialize for Vec<T>`: `u32` count then that many elements. -/
def dVecAux {α : Type} (dT : List Nat → Except DFailure (α × List Nat)) :
    Nat → List Nat → Except DFailure (List α × List Nat)
  | 0, l => .ok ([], l)
  | n + 1, l => do
    let (x, l) ← dT l
    let (xs, l) ← dVecAux dT n l
    .ok (x :: xs, l)

def dVec {α : Type} (dT : List Nat → Except DFailure (α × List Nat))
    (l : List Nat) : Except DFailure (List α × List Nat) := do
  let (len, l) ← dU32 l
  dVecAux dT len l

/-- `impl<T> Deserialize for VecEos<T>`: elements until the buffer is
empty.  The Rust loop has no progress check and would spin forever on a
non-consuming element deserializer; in the embedding the fuel (always
sufficient for the consuming element types actually used, since each
element read consumes at least one byte) and the progress guard stand in
for that divergence. -/
def dVecEosAux {α : Type} (dT : List Nat → Except DFailure (α × List Nat)) :
    Nat → List Nat → Except DFailure (List α × List Nat)
  | _, [] => .ok ([], [])
  | 0, _ => .error .panicIndex
  | fuel + 1, l => do
    let (x, l') ← dT l
    if l'.length < l.length then
      let (xs, l'') ← dVecEosAux dT fuel l'
      .ok (x :: xs, l'')
    else .error .panicIndex

def dVecEos {α : Type} (dT : List Nat → Except DFailure (α × List Nat))
    (l : List Nat) : Except DFailure (List α × List Nat) :=
  dVecEosAux dT (l.length + 1) l

/-- Serializers (infallible; the Rust impls only fail on writer errors,
and the in-memory `Vec<u8>` writer never fails). -/
def sString (s : List Nat) : List Nat := serString s

def sVecU8 (s : List Nat) : List Nat := serString s

def sVec {α : Type} (sT : α → List Nat) (l : List α) : List Nat :=
  u32be l.length ++ (l.map sT).flatten

def sVecEos {α : Type} (sT : α → List Nat) (l : List α) : List Nat :=
  (l.map sT).flatten

/-- `struct Pflags` (six bools, bits `0x1 … 0x20`). -/
structure Pflags where
  read : Bool
  write : Bool
  append : Bool
  creat : Bool
  trunc : Bool
  excl : Bool
  deriving DecidableEq, Repr

def bit (b : Bool) (k : Nat) : Nat := if b then 2 ^ k else 0

/-- `impl Serialize for Pflags`: sum of the set bits. -/
def sPflags (p : Pflags) : List Nat :=
  u32be (bit p.read 0 + bit p.write 1 + bit p.append 2 + bit p.creat 3 +
         bit p.trunc 4 + bit p.excl 5)

/-- `impl Deserialize for Pflags`. -/
def dPflags (l : List Nat) : Except DFailure (Pflags × List Nat) := do
  let (num, l) ← dU32 l
  .ok ({ read := num.testBit 0, write := num.testBit 1, append := num.testBit 2,
         creat := num.testBit 3, trunc := num.testBit 4, excl := num.testBit 5 }, l)

/-- `struct ExtendedAttr`. -/
structure ExtendedAttr where
  type : List Nat
  data : List Nat
  deriving DecidableEq, Repr

def sExtendedAttr (e : ExtendedAttr) : List Nat := sString e.type ++ sString e.data

def dExtendedAttr (l : List Nat) : Except DFailure (ExtendedAttr × List Nat) := do
  let (ty, l) ← dString l
  let (da, l) ← dString l
  .ok (⟨ty, da⟩, l)

/-- `struct Attrs` of `types.rs`. -/
structure Attrs where
  size : Option Nat := none
  uid_gid : Option (Nat × Nat) := none
  permissions : Option Nat := none
  atime_mtime : Option (Nat × Nat) := none
  extended_attrs : List ExtendedAttr := []
  deriving DecidableEq, Repr

/-- `impl Serialize for Attrs`: presence flags word, then the present
fields in order, then the extended attrs when non-empty. -/
def sAttrs (a : Attrs) : List Nat :=
  u32be (bit a.size.isSome 0 + bit a.uid_gid.isSome 1 + bit a.permissions.isSome 2 +
         bit a.atime_mtime.isSome 3 + bit (a.extended_attrs.length > 0) 31)
  ++ (match a.size with | some v => u64be v | none => [])
  ++ (match a.uid_gid with | some (u, g) => u32be u ++ u32be g | none => [])
  ++ (match a.permissions with | some v => u32be v | none => [])
  ++ (match a.atime_mtime with | some (t, m) => u32be t ++ u32be m | none => [])
  ++ (if a.extended_attrs.length > 0 then sVec sExtendedAttr a.extended_attrs else [])

/-- `impl Deserialize for Attrs`. -/
def dAttrs (l : List Nat) : Except DFailure (Attrs × List Nat) := do
  let (num, l) ← dU32 l
  let (size, l) ←
    if num.testBit 0 then do
      let (v, l) ← dU64 l
      pure (some v, l)
    else pure ((none : Option Nat), l)
  let (uid_gid, l) ←
    if num.testBit 1 then do
      let (u, l) ← dU32 l
      let (g, l) ← dU32 l
      pure (some (u, g), l)
    else pure ((none : Option (Nat × Nat)), l)
  let (permissions, l) ←
    if num.testBit 2 then do
      let (v, l) ← dU32 l
      pure (some v, l)
    else pure ((none : Option Nat), l)
  let (atime_mtime, l) ←
    if num.testBit 3 then do
      let (a, l) ← dU32 l
      let (m, l) ← dU32 l
      pure (some (a, m), l)
    else pure ((none : Option (Nat × Nat)), l)
  let (extended_attrs, l) ←
    if num.testBit 31 then dVec dExtendedAttr l
    else pure (([] : List ExtendedAttr), l)
  .ok ({ size, uid_gid, permissions, atime_mtime, extended_attrs }, l)

/-- `struct Extension`. -/
structure Extension where
  name : List Nat
  data : List Nat
  deriving DecidableEq, Repr

def sExtension (e : Extension) : List Nat := sString e.name ++ sString e.data

def dExtension (l : List Nat) : Except DFailure (Extension × List Nat) := do
  let (name, l) ← dString l
  let (data, l) ← dString l
  .ok (⟨name, data⟩, l)

/-- `enum ExtendedRequestType`. -/
inductive ExtendedRequestType where
  | OpensshStatvfs
  | OpensshPosixRename
  | OpensshHardlink
  | OpensshFsync
  deriving DecidableEq, Repr

/-- `impl Serialize for ExtendedRequestType`: the extension-name string. -/
def sExtendedRequestType : ExtendedRequestType → List Nat
  | .OpensshStatvfs => sString (ascii "statvfs@openssh.com")
  | .OpensshPosixRename => sString (ascii "posix-rename@openssh.com")
  | .OpensshHardlink => sString (ascii "hardlink@openssh.com")
  | .OpensshFsync => sString (ascii "fsync@openssh.com")

/-- `impl Deserialize for ExtendedRequestType`: match the name, with
`panic!("unexpected extended request")` on anything else. -/
def dExtendedRequestType (l : List Nat) :
    Except DFailure (ExtendedRequestType × List Nat) := do
  let (s, l) ← dString l
  if s = ascii "statvfs@openssh.com" then .ok (.OpensshStatvfs, l)
  else if s = ascii "posix-rename@openssh.com" then .ok (.OpensshPosixRename, l)
  else if s = ascii "hardlink@openssh.com" then .ok (.OpensshHardlink, l)
  else if s = ascii "fsync@openssh.com" then .ok (.OpensshFsync, l)
  else .error .panicUnexpectedExtendedRequest

/-- `enum ExtendedRequest` of `types.rs`. -/
inductive ExtendedRequest where
  | OpensshStatvfs (path : List Nat)
  | OpensshPosixRename (oldpath : List Nat) (newpath : List Nat)
  | OpensshHardlink (oldpath : List Nat) (newpath : List Nat)
  | OpensshFsync (handle : List Nat)
  deriving DecidableEq, Repr

def sExtendedRequest : ExtendedRequest → List Nat
  | .OpensshStatvfs path => sExtendedRequestType .OpensshStatvfs ++ sString path
  | .OpensshPosixRename o n => sExtendedRequestType .OpensshPosixRename ++ sString o ++ sString n
  | .OpensshHardlink o n => sExtendedRequestType .OpensshHardlink ++ sString o ++ sString n
  | .OpensshFsync h => sExtendedRequestType .OpensshFsync ++ sString h

def dExtendedRequest (l : List Nat) : Except DFailure (ExtendedRequest × List Nat) := do
  let (ty, l) ← dExtendedRequestType l
  match ty with
  | .OpensshStatvfs => do
    let (path, l) ← dString l
    .ok (.OpensshStatvfs path, l)
  | .OpensshPosixRename => do
    let (o, l) ← dString l
    let (n, l) ← dString l
    .ok (.OpensshPosixRename o n, l)
  | .OpensshHardlink => do
    let (o, l) ← dString l
    let (n, l) ← dString l
    .ok (.OpensshHardlink o n, l)
  | .OpensshFsync => do
    let (h, l) ← dString l
    .ok (.OpensshFsync h, l)

/-- `enum SftpClientPacket` of `types.rs` (derive-based revision:
`Extended` carries a parsed `ExtendedRequest`; `Symlink` declares
`linkpath` before `targetpath`). -/
inductive SftpClientPacket where
  | Init (version : Nat) (extensions : List Extension)
  | Open (id : Nat) (filename : List Nat) (pflags : Pflags) (attrs : Attrs)
  | Close (id : Nat) (handle : List Nat)
  | Read (id : Nat) (handle : List Nat) (offset : Nat) (len : Nat)
  | Write (id : Nat) (handle : List Nat) (offset : Nat) (data : List Nat)
  | Lstat (id : Nat) (path : List Nat)
  | Fstat (id : Nat) (handle : List Nat)
  | Setstat (id : Nat) (path : List Nat) (attrs : Attrs)
  | Fsetstat (id : Nat) (handle : List Nat) (attrs : Attrs)
  | Opendir (id : Nat) (path : List Nat)
  | Readdir (id : Nat) (handle : List Nat)
  | Remove (id : Nat) (filename : List Nat)
  | Mkdir (id : Nat) (path : List Nat) (attrs : Attrs)
  | Rmdir (id : Nat) (path : List Nat)
  | Realpath (id : Nat) (path : List Nat)
  | Stat (id : Nat) (path : List Nat)
  | Rename (id : Nat) (oldpath : List Nat) (newpath : List Nat)
  | Readlink (id : Nat) (path : List Nat)
  | Symlink (id : Nat) (linkpath : List Nat) (targetpath : List Nat)
  | Extended (id : Nat) (extended_request : ExtendedRequest)
  deriving DecidableEq, Repr

/-- Generated `Serialize` for `SftpClientPacket`: the `u8` discriminant
(`#[bin_ser(val = …)]`) followed by the variant's fields in declaration
order. -/
def serialize : SftpClientPacket → List Nat
  | .Init version extensions => [1] ++ u32be version ++ sVecEos sExtension extensions
  | .Open id filename pflags attrs => [3] ++ u32be id ++ sString filename ++ sPflags pflags ++ sAttrs attrs
  | .Close id handle => [4] ++ u32be id ++ sString handle
  | .Read id handle offset len => [5] ++ u32be id ++ sString handle ++ u64be offset ++ u32be len
  | .Write id handle offset data => [6] ++ u32be id ++ sString handle ++ u64be offset ++ sVecU8 data
  | .Lstat id path => [7] ++ u32be id ++ sString path
  | .Fstat id handle => [8] ++ u32be id ++ sString handle
  | .Setstat id path attrs => [9] ++ u32be id ++ sString path ++ sAttrs attrs
  | .Fsetstat id handle attrs => [10] ++ u32be id ++ sString handle ++ sAttrs attrs
  | .Opendir id path => [11] ++ u32be id ++ sString path
  | .Readdir id handle => [12] ++ u32be id ++ sString handle
  | .Remove id filename => [13] ++ u32be id ++ sString filename
  | .Mkdir id path attrs => [14] ++ u32be id ++ sString path ++ sAttrs attrs
  | .Rmdir id path => [15] ++ u32be id ++ sString path
  | .Realpath id path => [16] ++ u32be id ++ sString path
  | .Stat id path => [17] ++ u32be id ++ sString path
  | .Rename id oldpath newpath => [18] ++ u32be id ++ sString oldpath ++ sString newpath
  | .Readlink id path => [19] ++ u32be id ++ sString path
  | .Symlink id linkpath targetpath => [20] ++ u32be id ++ sString linkpath ++ sString targetpath
  | .Extended id er => [200] ++ u32be id ++ sExtendedRequest er

/-- Generated `Deserialize` for `SftpClientPacket`: `u8` discriminant
dispatch with `panic!("unknown enum variant")` on an unmatched value,
then the variant's fields in declaration order. -/
def deserialize (l : List Nat) : Except DFailure (SftpClientPacket × List Nat) := do
  let (disc, l) ← dU8 l
  if disc = 1 then do
    let (version, l) ← dU32 l
    let (extensions, l) ← dVecEos dExtension l
    .ok (.Init version extensions, l)
  else if disc = 3 then do
    let (id, l) ← dU32 l
    let (filename, l) ← dString l
    let (pflags, l) ← dPflags l
    let (attrs, l) ← dAttrs l
    .ok (.Open id filename pflags attrs, l)
  else if disc = 4 then do
    let (id, l) ← dU32 l
    let (handle, l) ← dString l
    .ok (.Close id handle, l)
  else if disc = 5 then do
    let (id, l) ← dU32 l
    let (handle, l) ← dString l
    let (offset, l) ← dU64 l
    let (len, l) ← dU32 l
    .ok (.Read id handle offset len, l)
  else if disc = 6 then do
    let (id, l) ← dU32 l
    let (handle, l) ← dString l
    let (offset, l) ← dU64 l
    let (data, l) ← dVecU8 l
    .ok (.Write id handle offset data, l)
  else if disc = 7 then do
    let (id, l) ← dU32 l
    let (path, l) ← dString l
    .ok (.Lstat id path, l)
  else if disc = 8 then do
    let (id, l) ← dU32 l
    let (handle, l) ← dString l
    .ok (.Fstat id handle, l)
  else if disc = 9 then do
    let (id, l) ← dU32 l
    let (path, l) ← dString l
    let (attrs, l) ← dAttrs l
    .ok (.Setstat id path attrs, l)
  else if disc = 10 then do
    let (id, l) ← dU32 l
    let (handle, l) ← dString l
    let (attrs, l) ← dAttrs l
    .ok (.Fsetstat id handle attrs, l)
  else if disc = 11 then do
    let (id, l) ← dU32 l
    let (path, l) ← dString l
    .ok (.Opendir id path, l)
  else if disc = 12 then do
    let (id, l) ← dU32 l
    let (handle, l) ← dString l
    .ok (.Readdir id handle, l)
  else if disc = 13 then do
    let (id, l) ← dU32 l
    let (filename, l) ← dString l
    .ok (.Remove id filename, l)
  else if disc = 14 then do
    let (id, l) ← dU32 l
    let (path, l) ← dString l
    let (attrs, l) ← dAttrs l
    .ok (.Mkdir id path attrs, l)
  else if disc = 15 then do
    let (id, l) ← dU32 l
    let (path, l) ← dString l
    .ok (.Rmdir id path, l)
  else if disc = 16 then do
    let (id, l) ← dU32 l
    let (path, l) ← dString l
    .ok (.Realpath id path, l)
  else if disc = 17 then do
    let (id, l) ← dU32 l
    let (path, l) ← dString l
    .ok (.Stat id path, l)
  else if disc = 18 then do
    let (id, l) ← dU32 l
    let (oldpath, l) ← dString l
    let (newpath, l) ← dString l
    .ok (.Rename id oldpath newpath, l)
  else if disc = 19 then do
    let (id, l) ← dU32 l
    let (path, l) ← dString l
    .ok (.Readlink id path, l)
  else if disc = 20 then do
    let (id, l) ← dU32 l
    let (linkpath, l) ← dString l
    let (targetpath, l) ← dString l
    .ok (.Symlink id linkpath targetpath, l)
  else if disc = 200 then do
    let (id, l) ← dU32 l
    let (er, l) ← dExtendedRequest l
    .ok (.Extended id er, l)
  else .error .panicUnknownEnumVariant

end Derived

/-! ## The request engine (`src/thrusftp-server/src/lib.rs`)

`SftpServer::process_internal` routes one decoded request through the
client's handle table to the backend and builds the response.  The engine
is embedded as a pure function parameterized over the backend resource
types `F` (open file) and `D` (open directory) and a backend oracle
mirroring the `Fs` trait of `src/thrusftp-protocol/src/lib.rs`: every
operation returns an `Except`, and operations taking `&mut` resource
handles additionally return the updated resource.  The function returns
the response, the updated handle table, and the list of backend
operations invoked, in order.  Paths and handles are Lean `String`s here
(the engine only concatenates and compares them); file payloads stay
byte lists. -/

namespace Engine

/-- `enum StatusCode` of `types.rs`. -/
inductive StatusCode where
  | Ok
  | Eof
  | NoSuchFile
  | PermissionDenied
  | Failure
  | BadMessage
  | NoConnection
  | ConnectionLost
  | OpUnsupported
  deriving DecidableEq, Repr

/-- The wire value of each status code (`#[bin_ser(val = …)]`). -/
def StatusCode.toWire : StatusCode → Nat
  | .Ok => 0
  | .Eof => 1
  | .NoSuchFile => 2
  | .PermissionDenied => 3
  | .Failure => 4
  | .BadMessage => 5
  | .NoConnection => 6
  | .ConnectionLost => 7
  | .OpUnsupported => 8

/-- `format!("{:?}", status_code)`, used for the error-message field of
`status_resp`. -/
def StatusCode.debugStr : StatusCode → String
  | .Ok => "Ok"
  | .Eof => "Eof"
  | .NoSuchFile => "NoSuchFile"
  | .PermissionDenied => "PermissionDenied"
  | .Failure => "Failure"
  | .BadMessage => "BadMessage"
  | .NoConnection => "NoConnection"
  | .ConnectionLost => "ConnectionLost"
  | .OpUnsupported => "OpUnsupported"

/-- `struct Pflags` (engine view). -/
structure Pflags where
  read : Bool := false
  write : Bool := false
  append : Bool := false
  creat : Bool := false
  trunc : Bool := false
  excl : Bool := false
  deriving DecidableEq, Repr

/-- `struct ExtendedAttr` (engine view). -/
structure ExtendedAttr where
  type : String
  data : String
  deriving DecidableEq, Repr

/-- `struct Attrs` (engine view). -/
structure Attrs where
  size : Option Nat := none
  uid_gid : Option (Nat × Nat) := none
  permissions : Option Nat := none
  atime_mtime : Option (Nat × Nat) := none
  extended_attrs : List ExtendedAttr := []
  deriving DecidableEq, Repr

/-- `struct Extension` (engine view). -/
structure Extension where
  name : String
  data : String
  deriving DecidableEq, Repr

/-- `struct Name`: one directory entry of a `Name` response.
`Default` gives empty strings and empty attrs. -/
structure Name where
  filename : String := ""
  longname : String := ""
  attrs : Attrs := {}
  deriving DecidableEq, Repr

/-- `struct FsStats` (the `statvfs` result): eleven `u64` fields. -/
structure FsStats where
  f_bsize : Nat := 0
  f_frsize : Nat := 0
  f_blocks : Nat := 0
  f_bfree : Nat := 0
  f_bavail : Nat := 0
  f_files : Nat := 0
  f_ffree : Nat := 0
  f_favail : Nat := 0
  f_fsid : Nat := 0
  f_flag : Nat := 0
  f_namemax : Nat := 0
  deriving DecidableEq, Repr

/-- Derived `Serialize` for `FsStats`: the eleven `u64`s big-endian. -/
def FsStats.serialize (s : FsStats) : List Nat :=
  u64be s.f_bsize ++ u64be s.f_frsize ++ u64be s.f_blocks ++ u64be s.f_bfree ++
  u64be s.f_bavail ++ u64be s.f_files ++ u64be s.f_ffree ++ u64be s.f_favail ++
  u64be s.f_fsid ++ u64be s.f_flag ++ u64be s.f_namemax

/-- `enum ExtendedRequest` (engine view). -/
inductive ExtendedRequest where
  | OpensshStatvfs (path : String)
  | OpensshPosixRename (oldpath : String) (newpath : String)
  | OpensshHardlink (oldpath : String) (newpath : String)
  | OpensshFsync (handle : String)
  deriving DecidableEq, Repr

/-- `enum SftpClientPacket` (engine view). -/
inductive SftpClientPacket where
  | Init (version : Nat) (extensions : List Extension)
  | Open (id : Nat) (filename : String) (pflags : Pflags) (attrs : Attrs)
  | Close (id : Nat) (handle : String)
  | Read (id : Nat) (handle : String) (offset : Nat) (len : Nat)
  | Write (id : Nat) (handle : String) (offset : Nat) (data : List Nat)
  | Lstat (id : Nat) (path : String)
  | Fstat (id : Nat) (handle : String)
  | Setstat (id : Nat) (path : String) (attrs : Attrs)
  | Fsetstat (id : Nat) (handle : String) (attrs : Attrs)
  | Opendir (id : Nat) (path : String)
  | Readdir (id : Nat) (handle : String)
  | Remove (id : Nat) (filename : String)
  | Mkdir (id : Nat) (path : String) (attrs : Attrs)
  | Rmdir (id : Nat) (path : String)
  | Realpath (id : Nat) (path : String)
  | Stat (id : Nat) (path : String)
  | Rename (id : Nat) (oldpath : String) (newpath : String)
  | Readlink (id : Nat) (path : String)
  | Symlink (id : Nat) (linkpath : String) (targetpath : String)
  | Extended (id : Nat) (extended_request : ExtendedRequest)
  deriving DecidableEq, Repr

/-- `enum SftpServerPacket` (engine view). -/
inductive SftpServerPacket where
  | Version (version : Nat) (extensions : List Extension)
  | Status (id : Nat) (status_code : StatusCode) (error_message : String)
      (language_tag : String)
  | Handle (id : Nat) (handle : String)
  | Data (id : Nat) (data : List Nat)
  | Name (id : Nat) (names : List Name)
  | Attrs (id : Nat) (attrs : Attrs)
  | ExtendedReply (id : Nat) (data : List Nat)
  deriving DecidableEq, Repr

/-- `std::io::ErrorKind` values distinguished by `error_resp`, plus
`AlreadyExists` (raised by `LocalFs::rename`) and a stand-in for every
other kind. -/
inductive IoErrorKind where
  | NotFound
  | UnexpectedEof
  | PermissionDenied
  | Unsupported
  | InvalidInput
  | InvalidData
  | AlreadyExists
  | OtherKind
  deriving DecidableEq, Repr

/-- A backend failure (`anyhow::Error`): either a downcastable
`std::io::Error` with its kind and display text, or any other error with
its display text. -/
inductive FsError where
  | io (kind : IoErrorKind) (msg : String)
  | other (msg : String)
  deriving DecidableEq, Repr

/-- `err.to_string()`. -/
def FsError.toString : FsError → String
  | .io _ msg => msg
  | .other msg => msg

/-- `enum FsHandle<F, D>` of `thrusftp-protocol/src/lib.rs`. -/
inductive FsHandle (F D : Type) where
  | File (file : F)
  | Dir (dir : D)
  deriving DecidableEq

/-- The backend oracle: the `Fs` trait of `thrusftp-protocol/src/lib.rs`.
Operations that take a `&mut` resource handle return the updated
resource alongside the result. -/
structure Fs (F D : Type) where
  statvfs_supported : Bool
  posix_rename_supported : Bool
  fsync_supported : Bool
  hardlink_supported : Bool
  openf : String → Pflags → Attrs → Except FsError F
  close : FsHandle F D → Except FsError Unit
  read : F → Nat → Nat → Except FsError (List Nat) × F
  write : F → Nat → List Nat → Except FsError Unit × F
  lstat : String → Except FsError Attrs
  fstat : F → Except FsError Attrs × F
  setstat : String → Attrs → Except FsError Unit
  fsetstat : F → Attrs → Except FsError Unit × F
  opendir : String → Except FsError D
  readdir : D → Except FsError (List Name) × D
  remove : String → Except FsError Unit
  mkdir : String → Attrs → Except FsError Unit
  rmdir : String → Except FsError Unit
  realpath : String → Except FsError String
  stat : String → Except FsError Attrs
  rename : String → String → Except FsError Unit
  readlink : String → Except FsError String
  symlink : String → String → Except FsError Unit
  posix_rename : String → String → Except FsError Unit
  fsync : F → Except FsError Unit × F
  statvfs : String → Except FsError FsStats
  hardlink : String → String → Except FsError Unit

/-- One backend invocation, for the call trace. -/
inductive FsCall where
  | openC (filename : String)
  | closeC (handle : String)
  | readC (handle : String) (offset : Nat) (len : Nat)
  | writeC (handle : String) (offset : Nat)
  | lstatC (path : String)
  | fstatC (handle : String)
  | setstatC (path : String)
  | fsetstatC (handle : String)
  | opendirC (path : String)
  | readdirC (handle : String)
  | removeC (filename : String)
  | mkdirC (path : String)
  | rmdirC (path : String)
  | realpathC (path : String)
  | statC (path : String)
  | renameC (oldpath : String) (newpath : String)
  | readlinkC (path : String)
  | symlinkC (linkpath : String) (targetpath : String)
  | posixRenameC (oldpath : String) (newpath : String)
  | fsyncC (handle : String)
  | statvfsC (path : String)
  | hardlinkC (oldpath : String) (newpath : String)
  deriving DecidableEq, Repr

/-- The per-client handle table
(`handles: HashMap<String, FsHandle<…>>`), as an association list with
`HashMap` insert/remove semantics. -/
abbrev Table (F D : Type) := List (String × FsHandle F D)

/-- `handles.contains_key(&k)`. -/
def containsKey {F D : Type} (t : Table F D) (k : String) : Bool :=
  t.any (fun e => e.1 == k)

/-- `handles.get(&k)` / `get_mut`. -/
def lookupH {F D : Type} (t : Table F D) (k : String) : Option (FsHandle F D) :=
  (t.find? (fun e => e.1 == k)).map (·.2)

/-- Write back the resource mutated through `get_mut(&k)`. -/
def updateH {F D : Type} (t : Table F D) (k : String) (v : FsHandle F D) : Table F D :=
  t.map (fun e => if e.1 == k then (k, v) else e)

/-- `handles.insert(k, v)` (replacing any existing entry for `k`). -/
def insertH {F D : Type} (t : Table F D) (k : String) (v : FsHandle F D) : Table F D :=
  if containsKey t k then updateH t k v else t ++ [(k, v)]

/-- `handles.remove(&k)`. -/
def removeH {F D : Type} (t : Table F D) (k : String) : Table F D :=
  t.filter (fun e => !(e.1 == k))

/-- The key set of the table. -/
def keysOf {F D : Type} (t : Table F D) : List String := t.map (·.1)

/-- The resource kind (file/dir) stored under a key. -/
inductive HKind where
  | file
  | dir
  deriving DecidableEq, Repr

def kindOf {F D : Type} : FsHandle F D → HKind
  | .File _ => .file
  | .Dir _ => .dir

def kindAt {F D : Type} (t : Table F D) (k : String) : Option HKind :=
  (lookupH t k).map kindOf

/-- `status_resp`. -/
def status_resp (id : Nat) (c : StatusCode) : SftpServerPacket :=
  .Status id c c.debugStr "en"

/-- `error_resp`: downcast to `std::io::Error` and map the kind
(default `Failure`, also for non-io errors). -/
def error_resp (id : Nat) (e : FsError) : SftpServerPacket :=
  .Status id
    (match e with
     | .io k _ =>
       match k with
       | .NotFound => .NoSuchFile
       | .UnexpectedEof => .Eof
       | .PermissionDenied => .PermissionDenied
       | .Unsupported => .OpUnsupported
       | .InvalidInput => .BadMessage
       | .InvalidData => .BadMessage
       | _ => .Failure
     | .other _ => .Failure)
    e.toString "en"

/-- `result_resp`. -/
def result_resp (id : Nat) (r : Except FsError Unit) : SftpServerPacket :=
  match r with
  | .error e => error_resp id e
  | .ok _ => status_resp id .Ok

/-- The handle-allocation loop of the Open/Opendir arms:
`loop { handle = format!("{}{}", prefix, num); if !contains { break } num += 1 }`.
The Rust loop is unbounded; the fuel argument bounds the embedding, and
`alloc_fuel_sufficient` below shows that `table length + 1` attempts
always find a free candidate, so the embedding agrees with the loop. -/
def allocFrom (contains : String → Bool) (pre : String) : Nat → Nat → Option Nat
  | 0, _ => none
  | fuel + 1, num =>
    if contains (pre ++ Nat.repr num) then allocFrom contains pre fuel (num + 1)
    else some num

def allocNum {F D : Type} (t : Table F D) (pre : String) : Nat :=
  (allocFrom (containsKey t) pre (t.length + 1) 0).getD 0

def allocHandle {F D : Type} (t : Table F D) (pre : String) : String :=
  pre ++ Nat.repr (allocNum t pre)

/-- Result of processing one request: the response packet, the client's
handle table afterwards, and the backend operations invoked. -/
structure ProcResult (F D : Type) where
  resp : SftpServerPacket
  handles : Table F D
  calls : List FsCall

/-- `SftpServer::process_internal` of `src/thrusftp-server/src/lib.rs`. -/
def process_internal {F D : Type} (fs : Fs F D) (client : Table F D) :
    SftpClientPacket → ProcResult F D
  | .Init _ _ =>
    let extensions :=
      (if fs.statvfs_supported then [Extension.mk "statvfs@openssh.com" "2"] else [])
      ++ (if fs.posix_rename_supported then [Extension.mk "posix-rename@openssh.com" "1"] else [])
      ++ (if fs.fsync_supported then [Extension.mk "fsync@openssh.com" "1"] else [])
      ++ (if fs.hardlink_supported then [Extension.mk "hardlink@openssh.com" "1"] else [])
    { resp := .Version 3 extensions, handles := client, calls := [] }
  | .Realpath id path =>
    { resp :=
        match fs.realpath path with
        | .ok filename => .Name id [{ filename }]
        | .error err => error_resp id err,
      handles := client, calls := [.realpathC path] }
  | .Opendir id path =>
    let handle := allocHandle client path
    match fs.opendir path with
    | .ok dir =>
      { resp := .Handle id handle, handles := insertH client handle (.Dir dir),
        calls := [.opendirC path] }
    | .error err =>
      { resp := error_resp id err, handles := client, calls := [.opendirC path] }
  | .Readdir id handle =>
    match lookupH client handle with
    | some (.Dir dir) =>
      let (r, dir') := fs.readdir dir
      { resp :=
          match r with
          | .ok names => .Name id names
          | .error err => error_resp id err,
        handles := updateH client handle (.Dir dir'), calls := [.readdirC handle] }
    | _ => { resp := status_resp id .BadMessage, handles := client, calls := [] }
  | .Close id handle =>
    match lookupH client handle with
    | some fs_handle =>
      { resp := result_resp id (fs.close fs_handle), handles := removeH client handle,
        calls := [.closeC handle] }
    | none => { resp := status_resp id .BadMessage, handles := client, calls := [] }
  | .Lstat id path =>
    { resp :=
        match fs.lstat path with
        | .ok attrs => .Attrs id attrs
        | .error err => error_resp id err,
      handles := client, calls := [.lstatC path] }
  | .Stat id path =>
    { resp :=
        match fs.stat path with
        | .ok attrs => .Attrs id attrs
        | .error err => error_resp id err,
      handles := client, calls := [.statC path] }
  | .Fstat id handle =>
    match lookupH client handle with
    | some (.File file) =>
      let (r, file') := fs.fstat file
      { resp :=
          match r with
          | .ok attrs => .Attrs id attrs
          | .error err => error_resp id err,
        handles := updateH client handle (.File file'), calls := [.fstatC handle] }
    | _ => { resp := status_resp id .BadMessage, handles := client, calls := [] }
  | .Open id filename pflags attrs =>
    let handle := allocHandle client filename
    match fs.openf filename pflags attrs with
    | .ok file =>
      { resp := .Handle id handle, handles := insertH client handle (.File file),
        calls := [.openC filename] }
    | .error err =>
      { resp := error_resp id err, handles := client, calls := [.openC filename] }
  | .Read id handle offset len =>
    match lookupH client handle with
    | some (.File file) =>
      let (r, file') := fs.read file offset len
      { resp :=
          match r with
          | .ok data => .Data id data
          | .error err => error_resp id err,
        handles := updateH client handle (.File file'),
        calls := [.readC handle offset len] }
    | _ => { resp := status_resp id .BadMessage, handles := client, calls := [] }
  | .Write id handle offset data =>
    match lookupH client handle with
    | some (.File file) =>
      let (r, file') := fs.write file offset data
      { resp := result_resp id r, handles := updateH client handle (.File file'),
        calls := [.writeC handle offset] }
    | _ => { resp := status_resp id .BadMessage, handles := client, calls := [] }
  | .Setstat id path attrs =>
    { resp := result_resp id (fs.setstat path attrs), handles := client,
      calls := [.setstatC path] }
  | .Fsetstat id handle attrs =>
    match lookupH client handle with
    | some (.File file) =>
      let (r, file') := fs.fsetstat file attrs
      { resp := result_resp id r, handles := updateH client handle (.File file'),
        calls := [.fsetstatC handle] }
    | _ => { resp := status_resp id .BadMessage, handles := client, calls := [] }
  | .Remove id filename =>
    { resp := result_resp id (fs.remove filename), handles := client,
      calls := [.removeC filename] }
  | .Mkdir id path attrs =>
    { resp := result_resp id (fs.mkdir path attrs), handles := client,
      calls := [.mkdirC path] }
  | .Rmdir id path =>
    { resp := result_resp id (fs.rmdir path), handles := client,
      calls := [.rmdirC path] }
  | .Rename id oldpath newpath =>
    { resp := result_resp id (fs.rename oldpath newpath), handles := client,
      calls := [.renameC oldpath newpath] }
  | .Symlink id linkpath targetpath =>
    { resp := result_resp id (fs.symlink linkpath targetpath), handles := client,
      calls := [.symlinkC linkpath targetpath] }
  | .Readlink id path =>
    { resp :=
        match fs.readlink path with
        | .ok filename => .Name id [{ filename }]
        | .error err => error_resp id err,
      handles := client, calls := [.readlinkC path] }
  | .Extended id er =>
    match er with
    | .OpensshStatvfs path =>
      { resp :=
          match fs.statvfs path with
          | .ok stats => .ExtendedReply id stats.serialize
          | .error err => error_resp id err,
        handles := client, calls := [.statvfsC path] }
    | .OpensshPosixRename oldpath newpath =>
      { resp := result_resp id (fs.posix_rename oldpath newpath), handles := client,
        calls := [.posixRenameC oldpath newpath] }
    | .OpensshHardlink oldpath newpath =>
      { resp := result_resp id (fs.hardlink oldpath newpath), handles := client,
        calls := [.hardlinkC oldpath newpath] }
    | .OpensshFsync handle =>
      match lookupH client handle with
      | some (.File file) =>
        let (r, file') := fs.fsync file
        { resp := result_resp id r, handles := updateH client handle (.File file'),
          calls := [.fsyncC handle] }
      | _ => { resp := status_resp id .BadMessage, handles := client, calls := [] }

/-! ### Request metadata used to state the claims -/

/-- The client-chosen request id carried by a packet (`Init` carries none
and is mapped to `0`; no claim uses it). -/
def reqId : SftpClientPacket → Nat
  | .Init _ _ => 0
  | .Open id _ _ _ => id
  | .Close id _ => id
  | .Read id _ _ _ => id
  | .Write id _ _ _ => id
  | .Lstat id _ => id
  | .Fstat id _ => id
  | .Setstat id _ _ => id
  | .Fsetstat id _ _ => id
  | .Opendir id _ => id
  | .Readdir id _ => id
  | .Remove id _ => id
  | .Mkdir id _ _ => id
  | .Rmdir id _ => id
  | .Realpath id _ => id
  | .Stat id _ => id
  | .Rename id _ _ => id
  | .Readlink id _ => id
  | .Symlink id _ _ => id
  | .Extended id _ => id

/-- For a handle-taking request: its handle argument and the resource
kind the engine demands of it (`none` for `Close`, which accepts both
kinds). -/
def handleArg : SftpClientPacket → Option (String × Option HKind)
  | .Read _ h _ _ => some (h, some .file)
  | .Write _ h _ _ => some (h, some .file)
  | .Fstat _ h => some (h, some .file)
  | .Fsetstat _ h _ => some (h, some .file)
  | .Readdir _ h => some (h, some .dir)
  | .Close _ h => some (h, none)
  | .Extended _ (.OpensshFsync h) => some (h, some .file)
  | _ => none

/-- The handle argument fails resolution: lookup miss, or (when a kind is
demanded) an entry of the wrong resource kind. -/
def badLookup {F D : Type} (t : Table F D) (h : String) : Option HKind → Prop
  | none => lookupH t h = none
  | some k => kindAt t h ≠ some k

/-- The three request kinds that are allowed to change the handle table. -/
def mutatesTable : SftpClientPacket → Bool
  | .Open _ _ _ _ => true
  | .Opendir _ _ => true
  | .Close _ _ => true
  | _ => false

/-! ### Handle-table lemmas -/

theorem containsKey_cons {F D : Type} (e : String × FsHandle F D) (t : Table F D)
    (k : String) : containsKey (e :: t) k = ((e.1 == k) || containsKey t k) := by
  simp [containsKey]

theorem lookupH_cons {F D : Type} (e : String × FsHandle F D) (t : Table F D)
    (k : String) :
    lookupH (e :: t) k = if e.1 = k then some e.2 else lookupH t k := by
  by_cases h : e.1 = k
  · simp [lookupH, List.find?_cons_of_pos, h]
  · simp [lookupH, List.find?_cons_of_neg, h]

theorem updateH_cons {F D : Type} (e : String × FsHandle F D) (t : Table F D)
    (k : String) (v : FsHandle F D) :
    updateH (e :: t) k v = (if e.1 = k then (k, v) else e) :: updateH t k v := by
  simp [updateH]

theorem containsKey_iff_mem_keysOf {F D : Type} (t : Table F D) (k : String) :
    containsKey t k = true ↔ k ∈ keysOf t := by
  simp only [containsKey, keysOf, List.any_eq_true, List.mem_map, beq_iff_eq]

theorem lookupH_eq_none_iff {F D : Type} (t : Table F D) (k : String) :
    lookupH t k = none ↔ containsKey t k = false := by
  induction t with
  | nil => simp [lookupH, containsKey]
  | cons e t ih =>
    rw [lookupH_cons, containsKey_cons]
    by_cases h : e.1 = k
    · simp [h]
    · simp [h, ih]

theorem lookupH_isSome_of_containsKey {F D : Type} {t : Table F D} {k : String}
    (h : containsKey t k = true) : ∃ v, lookupH t k = some v := by
  rcases he : lookupH t k with _ | v
  · rw [(lookupH_eq_none_iff t k).mp he] at h; exact absurd h (by simp)
  · exact ⟨v, rfl⟩

theorem lookupH_removeH_self {F D : Type} (t : Table F D) (k : String) :
    lookupH (removeH t k) k = none := by
  simp only [lookupH, removeH, Option.map_eq_none', List.find?_eq_none, List.mem_filter]
  rintro e ⟨_, hne⟩
  simpa using hne

theorem keysOf_updateH {F D : Type} (t : Table F D) (k : String) (v : FsHandle F D) :
    keysOf (updateH t k v) = keysOf t := by
  induction t with
  | nil => rfl
  | cons e t ih =>
    rw [updateH_cons]
    have hh : (if e.1 = k then (k, v) else e).1 = e.1 := by
      by_cases he : e.1 = k
      · simp [he]
      · simp [he]
    calc keysOf ((if e.1 = k then (k, v) else e) :: updateH t k v)
        = (if e.1 = k then (k, v) else e).1 :: keysOf (updateH t k v) := rfl
      _ = e.1 :: keysOf t := by rw [hh, ih]

theorem lookupH_updateH_self {F D : Type} {t : Table F D} {k : String}
    {w : FsHandle F D} (v : FsHandle F D) (hl : lookupH t k = some w) :
    lookupH (updateH t k v) k = some v := by
  induction t with
  | nil => simp [lookupH] at hl
  | cons e t ih =>
    rw [updateH_cons, lookupH_cons]
    rw [lookupH_cons] at hl
    by_cases he : e.1 = k
    · simp [he]
    · simp only [he, if_false] at hl ⊢
      exact ih hl

theorem lookupH_updateH_ne {F D : Type} (t : Table F D) {k k' : String}
    (v : FsHandle F D) (hne : k' ≠ k) :
    lookupH (updateH t k v) k' = lookupH t k' := by
  induction t with
  | nil => rfl
  | cons e t ih =>
    rw [updateH_cons, lookupH_cons, lookupH_cons]
    by_cases he : e.1 = k
    · have h1 : ¬(k = k') := fun h => hne h.symm
      have h2 : ¬(e.1 = k') := by rw [he]; exact h1
      simp only [he, if_true, h1, if_false, h2]
      exact ih
    · by_cases he' : e.1 = k'
      · simp [he, he', hne]
      · simp only [he, if_false, he']
        exact ih

theorem kindAt_updateH {F D : Type} {t : Table F D} {k : String}
    {w : FsHandle F D} (v : FsHandle F D) (hl : lookupH t k = some w)
    (hk : kindOf v = kindOf w) (k' : String) :
    kindAt (updateH t k v) k' = kindAt t k' := by
  by_cases hkk : k' = k
  · subst hkk
    simp [kindAt, lookupH_updateH_self v hl, hl, hk]
  · simp [kindAt, lookupH_updateH_ne t v hkk]

theorem containsKey_insertH_self {F D : Type} (t : Table F D) (k : String)
    (v : FsHandle F D) : containsKey (insertH t k v) k = true := by
  unfold insertH
  by_cases hc : containsKey t k
  · rw [if_pos hc]
    rw [containsKey_iff_mem_keysOf, keysOf_updateH]
    exact (containsKey_iff_mem_keysOf t k).mp hc
  · rw [if_neg hc]
    simp [containsKey, List.any_append]

theorem keysOf_insertH_of_not_mem {F D : Type} {t : Table F D} {k : String}
    (v : FsHandle F D) (hc : containsKey t k = false) :
    keysOf (insertH t k v) = keysOf t ++ [k] := by
  simp [insertH, hc, keysOf]

theorem nodup_keysOf_insertH {F D : Type} {t : Table F D} (k : String)
    (v : FsHandle F D) (h : (keysOf t).Nodup) : (keysOf (insertH t k v)).Nodup := by
  by_cases hc : containsKey t k
  · simpa [insertH, hc, keysOf_updateH] using h
  · rw [keysOf_insertH_of_not_mem v (by simpa using hc)]
    have hk : k ∉ keysOf t := fun hm =>
      absurd ((containsKey_iff_mem_keysOf t k).mpr hm) (by simp [hc])
    simp [List.nodup_append, h, hk]

theorem nodup_keysOf_removeH {F D : Type} (t : Table F D) (k : String)
    (h : (keysOf t).Nodup) : (keysOf (removeH t k)).Nodup := by
  have hs : (removeH t k).Sublist t := List.filter_sublist t
  exact h.sublist (hs.map _)

theorem nodup_keysOf_updateH {F D : Type} (t : Table F D) (k : String)
    (v : FsHandle F D) (h : (keysOf t).Nodup) : (keysOf (updateH t k v)).Nodup := by
  rw [keysOf_updateH]; exact h

/-! ### Handle-allocation lemmas -/

theorem allocFrom_eq_some {contains : String → Bool} {pre : String} :
    ∀ (fuel start n : Nat),
      contains (pre ++ Nat.repr n) = false →
      (∀ m, start ≤ m → m < n → contains (pre ++ Nat.repr m) = true) →
      start ≤ n → n < start + fuel →
      allocFrom contains pre fuel start = some n := by
  intro fuel
  induction fuel with
  | zero => intro start n _ _ h1 h2; omega
  | succ fuel ih =>
    intro start n hn hmin h1 h2
    by_cases hc : contains (pre ++ Nat.repr start) = true
    · have hne : start ≠ n := by
        intro h
        rw [h, hn] at hc
        exact Bool.false_ne_true hc
      have h1' : start + 1 ≤ n := by omega
      simp only [allocFrom, hc, if_true]
      exact ih (start + 1) n hn (fun m hm1 hm2 => hmin m (by omega) hm2) h1' (by omega)
    · have hsn : start = n := by
        by_contra hne
        have hlt : start < n := by omega
        rw [hmin start (le_refl _) hlt] at hc
        exact hc rfl
      subst hsn
      simp [allocFrom, hn]

/-- Among the counters `0 … t.length` some candidate handle is free: the
candidates are pairwise distinct strings, and the table has only
`t.length` keys. -/
theorem exists_free_candidate {F D : Type} (t : Table F D) (pre : String) :
    ∃ n, n ≤ t.length ∧ containsKey t (pre ++ Nat.repr n) = false := by
  by_contra hall
  push_neg at hall
  have hall' : ∀ n ≤ t.length, containsKey t (pre ++ Nat.repr n) = true := by
    intro n hn
    have := hall n hn
    revert this
    cases containsKey t (pre ++ Nat.repr n) <;> simp
  set l := (List.range (t.length + 1)).map (fun i => pre ++ Nat.repr i) with hl
  have hnd : l.Nodup := (List.nodup_range _).map (append_repr_injective pre)
  have hsub : ∀ s ∈ l, s ∈ keysOf t := by
    intro s hs
    simp only [hl, List.mem_map, List.mem_range] at hs
    obtain ⟨i, hi, rfl⟩ := hs
    exact (containsKey_iff_mem_keysOf t _).mp (hall' i (by omega))
  have hcard : l.toFinset.card ≤ (keysOf t).toFinset.card :=
    Finset.card_le_card (fun s hs => List.mem_toFinset.mpr (hsub s (List.mem_toFinset.mp hs)))
  have h1 : l.toFinset.card = t.length + 1 := by
    rw [List.toFinset_card_of_nodup hnd]
    simp [hl]
  have h2 : (keysOf t).toFinset.card ≤ t.length := by
    calc (keysOf t).toFinset.card ≤ (keysOf t).length := List.toFinset_card_le _
      _ = t.length := by simp [keysOf]
  omega

/-- The allocated counter is the smallest one whose candidate handle is
not already a key of the table. -/
theorem allocNum_spec {F D : Type} (t : Table F D) (pre : String) :
    containsKey t (pre ++ Nat.repr (allocNum t pre)) = false ∧
    ∀ m < allocNum t pre, containsKey t (pre ++ Nat.repr m) = true := by
  obtain ⟨n0, hn0le, hn0⟩ := exists_free_candidate t pre
  have hex : ∃ n, containsKey t (pre ++ Nat.repr n) = false := ⟨n0, hn0⟩
  set nmin := Nat.find hex with hnmin
  have hfree : containsKey t (pre ++ Nat.repr nmin) = false := Nat.find_spec hex
  have hmin : ∀ m < nmin, containsKey t (pre ++ Nat.repr m) = true := by
    intro m hm
    have := Nat.find_min hex hm
    revert this
    cases containsKey t (pre ++ Nat.repr m) <;> simp
  have hle : nmin ≤ n0 := Nat.find_min' hex hn0
  have : allocFrom (containsKey t) pre (t.length + 1) 0 = some nmin :=
    allocFrom_eq_some (t.length + 1) 0 nmin hfree (fun m _ hm2 => hmin m hm2)
      (Nat.zero_le _) (by omega)
  have halloc : allocNum t pre = nmin := by
    simp [allocNum, this]
  rw [halloc]
  exact ⟨hfree, hmin⟩

/-! ### The common handle-miss behaviour -/

/-- Every handle-taking arm of `process_internal`, when the handle
argument misses the table or names the wrong resource kind, answers
`status_resp(id, BadMessage)`, leaves the table untouched, and invokes
no backend operation. -/
theorem process_internal_badLookup {F D : Type} (fs : Fs F D) (t : Table F D)
    (pkt : SftpClientPacket) (h : String) (req : Option HKind)
    (ha : handleArg pkt = some (h, req)) (hb : badLookup t h req) :
    process_internal fs t pkt =
      ⟨status_resp (reqId pkt) .BadMessage, t, []⟩ := by
  have kindAt_ne_file : kindAt t h ≠ some HKind.file →
      lookupH t h = none ∨ ∃ d, lookupH t h = some (.Dir d) := by
    intro hbk
    rcases hl : lookupH t h with _ | v
    · exact Or.inl rfl
    · cases v with
      | File f => exact absurd (by simp [kindAt, hl, kindOf]) hbk
      | Dir d => exact Or.inr ⟨d, rfl⟩
  have kindAt_ne_dir : kindAt t h ≠ some HKind.dir →
      lookupH t h = none ∨ ∃ f, lookupH t h = some (.File f) := by
    intro hbk
    rcases hl : lookupH t h with _ | v
    · exact Or.inl rfl
    · cases v with
      | Dir d => exact absurd (by simp [kindAt, hl, kindOf]) hbk
      | File f => exact Or.inr ⟨f, rfl⟩
  cases pkt with
  | Init version extensions => simp [handleArg] at ha
  | Open id filename pflags attrs => simp [handleArg] at ha
  | Lstat id path => simp [handleArg] at ha
  | Setstat id path attrs => simp [handleArg] at ha
  | Opendir id path => simp [handleArg] at ha
  | Remove id filename => simp [handleArg] at ha
  | Mkdir id path attrs => simp [handleArg] at ha
  | Rmdir id path => simp [handleArg] at ha
  | Realpath id path => simp [handleArg] at ha
  | Stat id path => simp [handleArg] at ha
  | Rename id oldpath newpath => simp [handleArg] at ha
  | Readlink id path => simp [handleArg] at ha
  | Symlink id linkpath targetpath => simp [handleArg] at ha
  | Close id h' =>
    obtain ⟨rfl, hreq⟩ : h' = h ∧ (none : Option HKind) = req := by
      simpa [handleArg] using ha
    subst hreq
    simp only [badLookup] at hb
    simp [process_internal, hb, reqId]
  | Read id h' offset len =>
    obtain ⟨rfl, hreq⟩ : h' = h ∧ (some HKind.file : Option HKind) = req := by
      simpa [handleArg] using ha
    subst hreq
    simp only [badLookup] at hb
    rcases kindAt_ne_file hb with hl | ⟨d, hl⟩ <;> simp [process_internal, hl, reqId]
  | Write id h' offset data =>
    obtain ⟨rfl, hreq⟩ : h' = h ∧ (some HKind.file : Option HKind) = req := by
      simpa [handleArg] using ha
    subst hreq
    simp only [badLookup] at hb
    rcases kindAt_ne_file hb with hl | ⟨d, hl⟩ <;> simp [process_internal, hl, reqId]
  | Fstat id h' =>
    obtain ⟨rfl, hreq⟩ : h' = h ∧ (some HKind.file : Option HKind) = req := by
      simpa [handleArg] using ha
    subst hreq
    simp only [badLookup] at hb
    rcases kindAt_ne_file hb with hl | ⟨d, hl⟩ <;> simp [process_internal, hl, reqId]
  | Fsetstat id h' attrs =>
    obtain ⟨rfl, hreq⟩ : h' = h ∧ (some HKind.file : Option HKind) = req := by
      simpa [handleArg] using ha
    subst hreq
    simp only [badLookup] at hb
    rcases kindAt_ne_file hb with hl | ⟨d, hl⟩ <;> simp [process_internal, hl, reqId]
  | Readdir id h' =>
    obtain ⟨rfl, hreq⟩ : h' = h ∧ (some HKind.dir : Option HKind) = req := by
      simpa [handleArg] using ha
    subst hreq
    simp only [badLookup] at hb
    rcases kindAt_ne_dir hb with hl | ⟨f, hl⟩ <;> simp [process_internal, hl, reqId]
  | Extended id er =>
    cases er with
    | OpensshStatvfs path => simp [handleArg] at ha
    | OpensshPosixRename oldpath newpath => simp [handleArg] at ha
    | OpensshHardlink oldpath newpath => simp [handleArg] at ha
    | OpensshFsync h' =>
      obtain ⟨rfl, hreq⟩ : h' = h ∧ (some HKind.file : Option HKind) = req := by
        simpa [handleArg] using ha
      subst hreq
      simp only [badLookup] at hb
      rcases kindAt_ne_file hb with hl | ⟨d, hl⟩ <;> simp [process_internal, hl, reqId]

/-! ### Table-effect case analysis -/

/-- A request that is not Open/Opendir/Close either leaves the table
untouched or writes back, under an existing key, a resource of the same
kind as the one it read through `get_mut`. -/
theorem process_internal_handles_not_mutating {F D : Type} (fs : Fs F D)
    (t : Table F D) (pkt : SftpClientPacket) (hm : mutatesTable pkt = false) :
    (process_internal fs t pkt).handles = t ∨
    ∃ k w v, lookupH t k = some w ∧ kindOf v = kindOf w ∧
      (process_internal fs t pkt).handles = updateH t k v := by
  cases pkt with
  | Open id filename pflags attrs => simp [mutatesTable] at hm
  | Opendir id path => simp [mutatesTable] at hm
  | Close id handle => simp [mutatesTable] at hm
  | Init version extensions => exact Or.inl rfl
  | Realpath id path => exact Or.inl rfl
  | Lstat id path => exact Or.inl rfl
  | Stat id path => exact Or.inl rfl
  | Setstat id path attrs => exact Or.inl rfl
  | Remove id filename => exact Or.inl rfl
  | Mkdir id path attrs => exact Or.inl rfl
  | Rmdir id path => exact Or.inl rfl
  | Rename id oldpath newpath => exact Or.inl rfl
  | Symlink id linkpath targetpath => exact Or.inl rfl
  | Readlink id path => exact Or.inl rfl
  | Readdir id handle =>
    rcases hl : lookupH t handle with _ | v
    · left; simp [process_internal, hl]
    · cases v with
      | Dir d =>
        right
        exact ⟨handle, _, .Dir (fs.readdir d).2, hl, rfl, by simp [process_internal, hl]⟩
      | File f => left; simp [process_internal, hl]
  | Read id handle offset len =>
    rcases hl : lookupH t handle with _ | v
    · left; simp [process_internal, hl]
    · cases v with
      | File f =>
        right
        exact ⟨handle, _, .File (fs.read f offset len).2, hl, rfl,
          by simp [process_internal, hl]⟩
      | Dir d => left; simp [process_internal, hl]
  | Write id handle offset data =>
    rcases hl : lookupH t handle with _ | v
    · left; simp [process_internal, hl]
    · cases v with
      | File f =>
        right
        exact ⟨handle, _, .File (fs.write f offset data).2, hl, rfl,
          by simp [process_internal, hl]⟩
      | Dir d => left; simp [process_internal, hl]
  | Fstat id handle =>
    rcases hl : lookupH t handle with _ | v
    · left; simp [process_internal, hl]
    · cases v with
      | File f =>
        right
        exact ⟨handle, _, .File (fs.fstat f).2, hl, rfl, by simp [process_internal, hl]⟩
      | Dir d => left; simp [process_internal, hl]
  | Fsetstat id handle attrs =>
    rcases hl : lookupH t handle with _ | v
    · left; simp [process_internal, hl]
    · cases v with
      | File f =>
        right
        exact ⟨handle, _, .File (fs.fsetstat f attrs).2, hl, rfl,
          by simp [process_internal, hl]⟩
      | Dir d => left; simp [process_internal, hl]
  | Extended id er =>
    cases er with
    | OpensshStatvfs path => exact Or.inl rfl
    | OpensshPosixRename oldpath newpath => exact Or.inl rfl
    | OpensshHardlink oldpath newpath => exact Or.inl rfl
    | OpensshFsync handle =>
      rcases hl : lookupH t handle with _ | v
      · left; simp [process_internal, hl]
      · cases v with
        | File f =>
          right
          exact ⟨handle, _, .File (fs.fsync f).2, hl, rfl,
            by simp [process_internal, hl]⟩
        | Dir d => left; simp [process_internal, hl]

/-- Processing any request keeps the table's key list duplicate-free. -/
theorem nodup_keysOf_process_internal {F D : Type} (fs : Fs F D) (t : Table F D)
    (pkt : SftpClientPacket) (h : (keysOf t).Nodup) :
    (keysOf (process_internal fs t pkt).handles).Nodup := by
  cases hmm : mutatesTable pkt with
  | false =>
    rcases process_internal_handles_not_mutating fs t pkt hmm with he | ⟨k, w, v, _, _, he⟩
    · rw [he]; exact h
    · rw [he]; exact nodup_keysOf_updateH t k v h
  | true =>
    cases pkt with
    | Open id filename pflags attrs =>
      rcases ho : fs.openf filename pflags attrs with e | f
      · simpa [process_internal, ho] using h
      · simp only [process_internal, ho]
        exact nodup_keysOf_insertH _ _ h
    | Opendir id path =>
      rcases ho : fs.opendir path with e | d
      · simpa [process_internal, ho] using h
      · simp only [process_internal, ho]
        exact nodup_keysOf_insertH _ _ h
    | Close id handle =>
      rcases hl : lookupH t handle with _ | v
      · simpa [process_internal, hl] using h
      · simp only [process_internal, hl]
        exact nodup_keysOf_removeH t handle h
    | Init version extensions => simp [mutatesTable] at hmm
    | Realpath id path => simp [mutatesTable] at hmm
    | Lstat id path => simp [mutatesTable] at hmm
    | Stat id path => simp [mutatesTable] at hmm
    | Setstat id path attrs => simp [mutatesTable] at hmm
    | Remove id filename => simp [mutatesTable] at hmm
    | Mkdir id path attrs => simp [mutatesTable] at hmm
    | Rmdir id path => simp [mutatesTable] at hmm
    | Rename id oldpath newpath => simp [mutatesTable] at hmm
    | Symlink id linkpath targetpath => simp [mutatesTable] at hmm
    | Readlink id path => simp [mutatesTable] at hmm
    | Read id handle offset len => simp [mutatesTable] at hmm
    | Write id handle offset data => simp [mutatesTable] at hmm
    | Fstat id handle => simp [mutatesTable] at hmm
    | Fsetstat id handle attrs => simp [mutatesTable] at hmm
    | Readdir id handle => simp [mutatesTable] at hmm
    | Extended id er => simp [mutatesTable] at hmm

/-! ## The local-filesystem backend's rename pre-check
(`src/thrusftp/src/fs.rs`, `impl Fs for LocalFs`)

`LocalFs::rename` first checks `fs::metadata(&newpath).await.is_ok()` —
whether the destination already names an existing entry — and fails with
`std::io::ErrorKind::AlreadyExists` without performing the underlying
`fs::rename`; `LocalFs::posix_rename` calls `fs::rename` directly.  The
surrounding OS is abstracted into two parameters: `destExists` (the
`fs::metadata` outcome on the destination) and `raw` (the outcome the
underlying `fs::rename` syscall would have).  The second component of
the result records whether the underlying `fs::rename` was performed. -/

namespace LocalFs

/-- `LocalFs::rename`. -/
def rename (destExists : Bool) (raw : Except FsError Unit) :
    Except FsError Unit × Bool :=
  if destExists then (.error (.io .AlreadyExists "entity already exists"), false)
  else (raw, true)

/-- `LocalFs::posix_rename`: the underlying rename, unconditionally. -/
def posix_rename (raw : Except FsError Unit) : Except FsError Unit × Bool :=
  (raw, true)

end LocalFs

/-- A concrete backend oracle over unit resources, used to instantiate
the engine theorems at concrete inputs. -/
def trivFs : Fs Unit Unit where
  statvfs_supported := false
  posix_rename_supported := false
  fsync_supported := false
  hardlink_supported := false
  openf := fun _ _ _ => .ok ()
  close := fun _ => .ok ()
  read := fun _ _ _ => (.error (.io .UnexpectedEof "eof"), ())
  write := fun _ _ _ => (.ok (), ())
  lstat := fun _ => .ok {}
  fstat := fun _ => (.ok {}, ())
  setstat := fun _ _ => .ok ()
  fsetstat := fun _ _ => (.ok (), ())
  opendir := fun _ => .ok ()
  readdir := fun _ => (.error (.io .UnexpectedEof "eof"), ())
  remove := fun _ => .ok ()
  mkdir := fun _ _ => .ok ()
  rmdir := fun _ => .ok ()
  realpath := fun p => .ok p
  stat := fun _ => .ok {}
  rename := fun _ _ => .ok ()
  readlink := fun p => .ok p
  symlink := fun _ _ => .ok ()
  posix_rename := fun _ _ => .error (.io .Unsupported "unsupported")
  fsync := fun _ => (.error (.io .Unsupported "unsupported"), ())
  statvfs := fun _ => .error (.io .Unsupported "unsupported")
  hardlink := fun _ _ => .error (.io .Unsupported "unsupported")

end Engine

/-! ## Frame-level lemmas for the hand-written decoder -/

/-- `ok` propagates through `Except` binds. -/
theorem exceptBindOk {ε α β : Type} (a : α) (f : α → Except ε β) :
    (Except.ok a : Except ε α) >>= f = f a := rfl

namespace Wire

/-- `from_bytes` on a buffer beginning with a well-formed frame header
reduces to the body parse of exactly the declared payload, regardless of
any trailing bytes: the decoder never looks past the declared frame
boundary. -/
theorem from_bytes_frame (len : Nat) (payload rest : List Nat)
    (hlen : payload.length = len) (hb : len < 2 ^ 32) :
    from_bytes (u32be len ++ payload ++ rest) =
      match parsePacket payload with
      | .error e => .error e
      | .ok (pkt, remaining) =>
        if remaining.length = 0 then .ok pkt
        else .error (.protocol .InvalidLength) := by
  rw [List.append_assoc]
  unfold from_bytes
  rw [if_neg (by simp)]
  rw [List.take_left' (u32be_length len), List.drop_left' (u32be_length len),
    beVal_u32be len hb]
  rw [if_neg (by rw [List.length_append, hlen]; omega)]
  rw [List.take_left' hlen]

/-- `read_u32!` against a buffer beginning with a big-endian `u32`. -/
theorem readU32_u32be (n : Nat) (rest : List Nat) (h : n < 2 ^ 32) :
    readU32 (u32be n ++ rest) = .ok (n, rest) := by
  unfold readU32
  rw [if_neg (by simp), List.take_left' (u32be_length n),
    List.drop_left' (u32be_length n), beVal_u32be n h]

/-- `read_string!` against a buffer beginning with a serialized string. -/
theorem readString_serString (s rest : List Nat) (hv : validUtf8 s = true)
    (hb : s.length < 2 ^ 32) :
    readString (serString s ++ rest) = .ok (s, rest) := by
  rw [serString, List.append_assoc]
  unfold readString
  simp only [readU32_u32be s.length (s ++ rest) hb, exceptBindOk]
  rw [if_neg (by rw [List.length_append]; omega)]
  rw [List.take_left' rfl, List.drop_left' rfl, hv]
  simp

end Wire

namespace Derived

/-- `u32::deserialize` against a buffer beginning with a big-endian `u32`. -/
theorem dU32_u32be (n : Nat) (rest : List Nat) (h : n < 2 ^ 32) :
    dU32 (u32be n ++ rest) = .ok (n, rest) := by
  unfold dU32
  rw [if_neg (by simp), List.take_left' (u32be_length n),
    List.drop_left' (u32be_length n), beVal_u32be n h]

/-- `String::deserialize` against a buffer beginning with a serialized
string. -/
theorem dString_serString (s rest : List Nat) (hv : validUtf8 s = true)
    (hb : s.length < 2 ^ 32) :
    dString (serString s ++ rest) = .ok (s, rest) := by
  rw [serString, List.append_assoc]
  unfold dString
  simp only [dU32_u32be s.length (s ++ rest) hb, exceptBindOk]
  rw [if_neg (by rw [List.length_append]; omega)]
  rw [List.take_left' rfl, List.drop_left' rfl, hv]
  simp

end Derived

/-- C1.  The claim asserts `decode(encode(x)) == x` *and* that decoding
consumes exactly the bytes produced, for every packet.  The code breaks the
consumption half: `impl Deserialize for VecU8`
(`src/thrusftp-protocol/src/parse.rs` lines 80–85, same slip in
`impl Deserialize for Data` of `src/thrusftp/src/parse.rs`) reads the
length prefix and copies the bytes but never advances the input slice, so
deserializing the serialization of `Write { id: 1, handle: "h", offset: 2,
data: [42] }` returns the original value but leaves the one data byte
unconsumed — against the sibling impls, the hand-written decoder's
explicit advance, and the frame check that demands exact consumption. -/
theorem c1_vecu8_leftover :
    Derived.deserialize (Derived.serialize (.Write 1 [104] 2 [42]))
      = .ok (.Write 1 [104] 2 [42], [42]) ∧
    ([42] : List Nat) ≠ [] ∧
    Derived.serialize (.Write 1 [104] 2 [42])
      = [6, 0, 0, 0, 1, 0, 0, 0, 1, 104, 0, 0, 0, 0, 0, 0, 0, 2, 0, 0, 0, 1, 42] := by
  refine ⟨by decide, by decide, by decide⟩

/-- C2.  Whenever the body parse of the declared payload succeeds but
consumes strictly less than the declared length (non-empty remainder),
`SftpClientPacket::from_bytes` rejects the frame with the distinct
`InvalidLength` error, returns no packet, and computes the same result
whatever bytes follow the declared frame — bytes of a following frame are
never consumed. -/
theorem c2_invalid_length (len : Nat) (payload rest : List Nat)
    (pkt : Wire.SftpClientPacket) (rem : List Nat)
    (hlen : payload.length = len) (hb : len < 2 ^ 32)
    (hparse : Wire.parsePacket payload = .ok (pkt, rem)) (hrem : rem ≠ []) :
    Wire.from_bytes (u32be len ++ payload ++ rest)
        = .error (.protocol .InvalidLength) ∧
    Wire.from_bytes (u32be len ++ payload ++ rest)
        = Wire.from_bytes (u32be len ++ payload) ∧
    ∀ p, Wire.from_bytes (u32be len ++ payload ++ rest) ≠ .ok p := by
  have h1 := Wire.from_bytes_frame len payload rest hlen hb
  have h2 := Wire.from_bytes_frame len payload [] hlen hb
  rw [hparse] at h1 h2
  have hlen0 : ¬(rem.length = 0) := by simpa using hrem
  simp only [hlen0, if_false] at h1 h2
  rw [List.append_nil] at h2
  refine ⟨h1, by rw [h1, h2], fun p => by rw [h1]; simp⟩

/-- Witness for C2: a `Close` frame that declares one byte more than its
packet content; the decoder answers `InvalidLength` and ignores the
following frame's bytes. -/
theorem c2_invalid_length_witness :
    Wire.parsePacket [4, 0, 0, 0, 7, 0, 0, 0, 0, 170]
        = .ok (.Close 7 [], [170]) ∧
    Wire.from_bytes (u32be 10 ++ [4, 0, 0, 0, 7, 0, 0, 0, 0, 170] ++ [1, 2, 3])
        = .error (.protocol .InvalidLength) :=
  ⟨by decide,
   (c2_invalid_length 10 [4, 0, 0, 0, 7, 0, 0, 0, 0, 170] [1, 2, 3]
      (.Close 7 []) [170] (by decide) (by decide) (by decide) (by decide)).1⟩

/-- C3.  The claim demands distinct *recoverable* error values, not
crashes.  The code panics in both places: the bin-ser-generated
deserializer's discriminant match ends in `panic!("unknown enum variant")`
(here: the undefined opcode 99), and
`impl Deserialize for ExtendedRequestType` ends in
`panic!("unexpected extended request")` (here: an `Extended` request
naming the unrecognized extension "a@b").  The two panics are distinct
from each other, but both are process aborts, not error values. -/
theorem c3_unknown_discriminants_panic :
    Derived.deserialize [99] = .error .panicUnknownEnumVariant ∧
    Derived.deserialize ([200] ++ u32be 7 ++ serString (ascii "a@b"))
      = .error .panicUnexpectedExtendedRequest ∧
    Derived.DFailure.panicUnknownEnumVariant
      ≠ Derived.DFailure.panicUnexpectedExtendedRequest := by
  refine ⟨by decide, by decide, by decide⟩

/-- C4, counterexample.  The claim asserts that the encoder writes the
Symlink paths in the swapped (target-first) order bit-for-bit.  The only
Symlink encoder in the tree is the derive-generated one, and it writes the
fields in declaration order: for `Symlink { id: 5, linkpath: "l",
targetpath: "t" }` the linkpath byte `108` precedes the targetpath byte
`116`, which differs from the target-first byte string the claim
predicts. -/
theorem c4_encoder_counterexample :
    Derived.serialize (.Symlink 5 [108] [116])
      = [20, 0, 0, 0, 5, 0, 0, 0, 1, 108, 0, 0, 0, 1, 116] ∧
    [20, 0, 0, 0, 5, 0, 0, 0, 1, 108, 0, 0, 0, 1, 116]
      ≠ [20, 0, 0, 0, 5, 0, 0, 0, 1, 116, 0, 0, 0, 1, 108] := by
  refine ⟨by decide, by decide⟩

/-- C4, amended.  The hand-written decoder `SftpClientPacket::from_bytes`
reads the Symlink paths in swapped order — the first wire string becomes
the target path, the second the link path — but the derive-generated codec
reads *and* writes them in declaration order (link path first) and so does
not reproduce the swap; there is no hand-written Symlink encoder. -/
theorem c4_symlink_orders (id : Nat) (a b : List Nat) (hid : id < 2 ^ 32)
    (ha : a.length < 2 ^ 32) (hb : b.length < 2 ^ 32)
    (hva : validUtf8 a = true) (hvb : validUtf8 b = true) :
    Wire.parsePacket ([20] ++ u32be id ++ serString a ++ serString b)
      = .ok (.Symlink id b a, []) ∧
    Derived.serialize (.Symlink id a b)
      = [20] ++ u32be id ++ serString a ++ serString b ∧
    Derived.deserialize ([20] ++ u32be id ++ serString a ++ serString b)
      = .ok (.Symlink id a b, []) := by
  have e1 : ([20] ++ u32be id ++ serString a ++ serString b)
      = 20 :: (u32be id ++ (serString a ++ serString b)) := by simp
  refine ⟨?_, rfl, ?_⟩
  · rw [e1]
    unfold Wire.parsePacket
    rw [show Wire.readU8 (20 :: (u32be id ++ (serString a ++ serString b)))
        = .ok (20, u32be id ++ (serString a ++ serString b)) from rfl]
    rw [exceptBindOk]
    unfold Wire.parseBody
    norm_num
    simp only [Wire.readU32_u32be id _ hid, exceptBindOk,
      Wire.readString_serString a _ hva ha]
    rw [show Wire.readString (serString b) = .ok (b, []) from by
      rw [← List.append_nil (serString b)]; exact Wire.readString_serString b [] hvb hb]
    rw [exceptBindOk]
  · rw [e1]
    unfold Derived.deserialize
    rw [show Derived.dU8 (20 :: (u32be id ++ (serString a ++ serString b)))
        = .ok (20, u32be id ++ (serString a ++ serString b)) from rfl]
    rw [exceptBindOk]
    norm_num
    simp only [Derived.dU32_u32be id _ hid, exceptBindOk,
      Derived.dString_serString a _ hva ha]
    rw [show Derived.dString (serString b) = .ok (b, []) from by
      rw [← List.append_nil (serString b)]; exact Derived.dString_serString b [] hvb hb]
    rw [exceptBindOk]

/-- Witness for C4 at concrete values: first wire string `"t"`, second
`"l"`; `from_bytes`' body parse produces `linkpath = "l"`,
`targetpath = "t"`, while the derived codec keeps declaration order. -/
theorem c4_symlink_orders_witness :
    validUtf8 [116] = true ∧
    Wire.parsePacket ([20] ++ u32be 5 ++ serString [116] ++ serString [108])
      = .ok (.Symlink 5 [108] [116], []) :=
  ⟨by decide,
   (c4_symlink_orders 5 [116] [108] (by decide) (by decide) (by decide)
      (by decide) (by decide)).1⟩

namespace Engine

/-- C5.  On an Open (resp. Opendir) whose backend call succeeds, the
handle in the `Handle` response is the requested filename (resp. path)
concatenated with the decimal rendering of the *smallest* counter whose
candidate is not already a key of this client's table, and the new entry
is inserted under that handle.  Consequently a second Open of the same
filename with no intervening Close returns a different handle string,
and processing requests never introduces a duplicate key into a
client's table. -/
theorem c5_handle_allocation {F D : Type} (fs : Fs F D) (t : Table F D)
    (id id2 : Nat) (filename path : String) (pflags : Pflags) (attrs : Attrs)
    (f : F) (d : D)
    (hopen : fs.openf filename pflags attrs = .ok f)
    (hdir : fs.opendir path = .ok d) :
    (∃ n, (process_internal fs t (.Open id filename pflags attrs)).resp
            = .Handle id (filename ++ Nat.repr n)
        ∧ containsKey t (filename ++ Nat.repr n) = false
        ∧ (∀ m < n, containsKey t (filename ++ Nat.repr m) = true)
        ∧ (process_internal fs t (.Open id filename pflags attrs)).handles
            = insertH t (filename ++ Nat.repr n) (.File f))
    ∧ (∃ n, (process_internal fs t (.Opendir id path)).resp
            = .Handle id (path ++ Nat.repr n)
        ∧ containsKey t (path ++ Nat.repr n) = false
        ∧ (∀ m < n, containsKey t (path ++ Nat.repr m) = true))
    ∧ (∀ h1 h2,
        (process_internal fs t (.Open id filename pflags attrs)).resp
          = .Handle id h1 →
        (process_internal fs
            (process_internal fs t (.Open id filename pflags attrs)).handles
            (.Open id2 filename pflags attrs)).resp = .Handle id2 h2 →
        h1 ≠ h2)
    ∧ (∀ pkt, (keysOf t).Nodup →
        (keysOf (process_internal fs t pkt).handles).Nodup) := by
  have hres : process_internal fs t (.Open id filename pflags attrs)
      = { resp := .Handle id (allocHandle t filename),
          handles := insertH t (allocHandle t filename) (.File f),
          calls := [.openC filename] } := by
    simp [process_internal, hopen]
  obtain ⟨hfree, hmin⟩ := allocNum_spec t filename
  refine ⟨⟨allocNum t filename, by rw [hres]; rfl, hfree, hmin, by rw [hres]; rfl⟩, ?_, ?_, ?_⟩
  · obtain ⟨hfree', hmin'⟩ := allocNum_spec t path
    have hres2 : process_internal fs t (.Opendir id path)
        = { resp := .Handle id (allocHandle t path),
            handles := insertH t (allocHandle t path) (.Dir d),
            calls := [.opendirC path] } := by
      simp [process_internal, hdir]
    exact ⟨allocNum t path, by rw [hres2]; rfl, hfree', hmin'⟩
  · intro h1 h2 hh1 hh2
    rw [hres] at hh1 hh2
    have e1 : allocHandle t filename = h1 := by simpa using hh1
    have hres2 : process_internal fs
        (insertH t (allocHandle t filename) (.File f)) (.Open id2 filename pflags attrs)
        = { resp := .Handle id2
              (allocHandle (insertH t (allocHandle t filename) (.File f)) filename),
            handles := insertH (insertH t (allocHandle t filename) (.File f))
              (allocHandle (insertH t (allocHandle t filename) (.File f)) filename)
              (.File f),
            calls := [.openC filename] } := by
      simp [process_internal, hopen]
    rw [hres2] at hh2
    have e2 : allocHandle (insertH t (allocHandle t filename) (.File f)) filename = h2 := by
      simpa using hh2
    intro heq
    obtain ⟨hfree2, _⟩ :=
      allocNum_spec (insertH t (allocHandle t filename) (.File f)) filename
    have hc1 : containsKey (insertH t (allocHandle t filename) (.File f)) h1 = true := by
      rw [← e1]
      exact containsKey_insertH_self t (allocHandle t filename) (.File f)
    have hfree2' : containsKey (insertH t (allocHandle t filename) (.File f))
        (allocHandle (insertH t (allocHandle t filename) (.File f)) filename)
          = false := hfree2
    rw [heq, ← e2] at hc1
    rw [hc1] at hfree2'
    exact Bool.noConfusion hfree2'
  · intro pkt hn
    exact nodup_keysOf_process_internal fs t pkt hn

/-- Witness for C5: spec scenario B — opening `"/tmp/x"` twice on an
empty table yields `"/tmp/x0"` then `"/tmp/x1"`. -/
theorem c5_handle_allocation_witness :
    trivFs.openf "/tmp/x" {} {} = .ok () ∧
    (∃ n, (process_internal trivFs ([] : Table Unit Unit)
        (.Open 1 "/tmp/x" {} {})).resp = .Handle 1 ("/tmp/x" ++ Nat.repr n)
      ∧ containsKey ([] : Table Unit Unit) ("/tmp/x" ++ Nat.repr n) = false
      ∧ (∀ m < n, containsKey ([] : Table Unit Unit) ("/tmp/x" ++ Nat.repr m) = true)
      ∧ (process_internal trivFs ([] : Table Unit Unit)
          (.Open 1 "/tmp/x" {} {})).handles
          = insertH ([] : Table Unit Unit) ("/tmp/x" ++ Nat.repr n) (.File ())) ∧
    (process_internal trivFs ([] : Table Unit Unit) (.Open 1 "/tmp/x" {} {})).resp
      = .Handle 1 "/tmp/x0" ∧
    (process_internal trivFs
        (process_internal trivFs ([] : Table Unit Unit) (.Open 1 "/tmp/x" {} {})).handles
        (.Open 2 "/tmp/x" {} {})).resp = .Handle 2 "/tmp/x1" :=
  ⟨rfl,
   (c5_handle_allocation trivFs [] 1 2 "/tmp/x" "/tmp/x" {} {} () () rfl rfl).1,
   by decide, by decide⟩

/-- C6.  A Close naming a present handle removes the table entry
unconditionally — the resulting table is the same for every backend,
including one whose close fails — and answers `result_resp` of the
backend close on the removed resource; afterwards the handle is absent
and any handle-taking request naming it (under any backend) answers
`Status(BadMessage)` without touching the table. -/
theorem c6_close_releases_unconditionally {F D : Type} (fs fs' : Fs F D)
    (t : Table F D) (id : Nat) (h : String) (v : FsHandle F D)
    (hl : lookupH t h = some v) :
    (process_internal fs t (.Close id h)).handles = removeH t h ∧
    (process_internal fs t (.Close id h)).resp = result_resp id (fs.close v) ∧
    containsKey (removeH t h) h = false ∧
    (∀ pkt req, handleArg pkt = some (h, req) →
      process_internal fs' (removeH t h) pkt
        = ⟨status_resp (reqId pkt) .BadMessage, removeH t h, []⟩) := by
  have hp : process_internal fs t (.Close id h)
      = { resp := result_resp id (fs.close v), handles := removeH t h,
          calls := [.closeC h] } := by
    simp [process_internal, hl]
  refine ⟨by rw [hp], by rw [hp], ?_, ?_⟩
  · rw [← lookupH_eq_none_iff]
    exact lookupH_removeH_self t h
  · intro pkt req ha
    have hb : badLookup (removeH t h) h req := by
      cases req with
      | none => exact lookupH_removeH_self t h
      | some k => simp [badLookup, kindAt, lookupH_removeH_self t h]
    exact process_internal_badLookup fs' (removeH t h) pkt h req ha hb

/-- Witness for C6: closing the only file handle empties the table, and
a second Close of the same handle answers BadMessage. -/
theorem c6_close_releases_unconditionally_witness :
    lookupH ([("h", FsHandle.File ())] : Table Unit Unit) "h" = some (.File ()) ∧
    (process_internal trivFs ([("h", FsHandle.File ())] : Table Unit Unit)
        (.Close 9 "h")).handles = removeH [("h", FsHandle.File ())] "h" ∧
    (process_internal trivFs (removeH ([("h", FsHandle.File ())] : Table Unit Unit) "h")
        (.Close 10 "h")).resp = status_resp 10 .BadMessage := by
  refine ⟨by decide, (c6_close_releases_unconditionally trivFs trivFs
    [("h", FsHandle.File ())] 9 "h" (.File ()) (by decide)).1, ?_⟩
  rw [(c6_close_releases_unconditionally trivFs trivFs
    [("h", FsHandle.File ())] 9 "h" (.File ()) (by decide)).2.2.2
    (.Close 10 "h") none rfl]
  rfl

/-- C7.  Every handle-taking request (Read, Write, Fstat, Fsetstat,
Readdir, Close, Extended fsync) whose handle misses the client's table or
names the wrong resource kind is answered with `Status(BadMessage)`
echoing the request id, with no backend operation invoked and the table
unchanged — a request-level, recoverable outcome. -/
theorem c7_bad_handle_recoverable {F D : Type} (fs : Fs F D) (t : Table F D)
    (pkt : SftpClientPacket) (h : String) (req : Option HKind)
    (ha : handleArg pkt = some (h, req)) (hb : badLookup t h req) :
    (process_internal fs t pkt).resp = status_resp (reqId pkt) .BadMessage ∧
    (process_internal fs t pkt).handles = t ∧
    (process_internal fs t pkt).calls = [] := by
  rw [process_internal_badLookup fs t pkt h req ha hb]
  exact ⟨rfl, rfl, rfl⟩

/-- Witness for C7: a Read naming a handle absent from an empty table. -/
theorem c7_bad_handle_recoverable_witness :
    handleArg (.Read 7 "h" 0 4) = some ("h", some .file) ∧
    kindAt ([] : Table Unit Unit) "h" ≠ some .file ∧
    (process_internal trivFs ([] : Table Unit Unit) (.Read 7 "h" 0 4)).resp
      = status_resp 7 .BadMessage ∧
    (process_internal trivFs ([] : Table Unit Unit) (.Read 7 "h" 0 4)).calls = [] :=
  ⟨rfl, by simp [badLookup, kindAt, lookupH],
   (c7_bad_handle_recoverable trivFs [] (.Read 7 "h" 0 4) "h" (some .file)
      rfl (by simp [badLookup, kindAt, lookupH])).1,
   (c7_bad_handle_recoverable trivFs [] (.Read 7 "h" 0 4) "h" (some .file)
      rfl (by simp [badLookup, kindAt, lookupH])).2.2⟩

/-- C8.  Every Init request is answered with `Version { version: 3 }`
whose extension list contains an entry named after each optional
capability exactly when the backend reports support for it, with the
fixed payloads `"2"` for statvfs and `"1"` for the rest, and contains
nothing else. -/
theorem c8_init_capabilities {F D : Type} (fs : Fs F D) (t : Table F D)
    (version : Nat) (exts : List Extension) :
    ∃ l, (process_internal fs t (.Init version exts)).resp = .Version 3 l
      ∧ ((∃ p, Extension.mk "statvfs@openssh.com" p ∈ l)
            ↔ fs.statvfs_supported = true)
      ∧ (Extension.mk "statvfs@openssh.com" "2" ∈ l
            ↔ fs.statvfs_supported = true)
      ∧ ((∃ p, Extension.mk "posix-rename@openssh.com" p ∈ l)
            ↔ fs.posix_rename_supported = true)
      ∧ (Extension.mk "posix-rename@openssh.com" "1" ∈ l
            ↔ fs.posix_rename_supported = true)
      ∧ ((∃ p, Extension.mk "fsync@openssh.com" p ∈ l)
            ↔ fs.fsync_supported = true)
      ∧ (Extension.mk "fsync@openssh.com" "1" ∈ l
            ↔ fs.fsync_supported = true)
      ∧ ((∃ p, Extension.mk "hardlink@openssh.com" p ∈ l)
            ↔ fs.hardlink_supported = true)
      ∧ (Extension.mk "hardlink@openssh.com" "1" ∈ l
            ↔ fs.hardlink_supported = true)
      ∧ (∀ e ∈ l, e.name ∈ ["statvfs@openssh.com", "posix-rename@openssh.com",
            "fsync@openssh.com", "hardlink@openssh.com"]) := by
  refine ⟨_, rfl, ?_⟩
  cases hs : fs.statvfs_supported <;> cases hp : fs.posix_rename_supported <;>
    cases hf : fs.fsync_supported <;> cases hh : fs.hardlink_supported <;>
    simp [hs, hp, hf, hh]

/-- C9, counterexample.  The claim puts the already-exists pre-check in
the *engine* and asserts the backend rename operation is never invoked
when the destination exists.  Composing the engine with the `LocalFs`
backend over a state where the destination exists, the engine's call
trace for a Rename contains the backend rename call: the engine performs
no pre-check and always delegates.  (The `Status(Failure)` response the
claim predicts does arrive — produced by the backend's own check.) -/
theorem c9_engine_precheck_counterexample :
    (process_internal
        { trivFs with rename := fun _ _ => (LocalFs.rename true (.ok ())).1 }
        ([] : Table Unit Unit) (.Rename 3 "/a" "/b")).calls
      = [.renameC "/a" "/b"] ∧
    [FsCall.renameC "/a" "/b"] ≠ [] ∧
    (process_internal
        { trivFs with rename := fun _ _ => (LocalFs.rename true (.ok ())).1 }
        ([] : Table Unit Unit) (.Rename 3 "/a" "/b")).resp
      = .Status 3 .Failure "entity already exists" "en" := by
  refine ⟨rfl, by decide, rfl⟩

/-- C9, amended.  The engine delegates every standard Rename to the
backend unconditionally; the destination pre-check lives in
`LocalFs::rename`, which — when the destination exists — fails with
`AlreadyExists` *without* performing the underlying filesystem rename,
and the engine maps that failure to `Status(Failure)`.
`LocalFs::posix_rename` performs no pre-check and always runs the
underlying rename (and may therefore overwrite). -/
theorem c9_rename_precheck_in_backend {F D : Type} (fs : Fs F D)
    (t : Table F D) (id : Nat) (old new : String) (raw : Except FsError Unit) :
    (process_internal fs t (.Rename id old new)).calls = [.renameC old new] ∧
    LocalFs.rename true raw
      = (.error (.io .AlreadyExists "entity already exists"), false) ∧
    LocalFs.rename false raw = (raw, true) ∧
    LocalFs.posix_rename raw = (raw, true) ∧
    (process_internal { fs with rename := fun _ _ => (LocalFs.rename true raw).1 }
        t (.Rename id old new)).resp
      = .Status id .Failure "entity already exists" "en" := by
  refine ⟨rfl, rfl, rfl, rfl, rfl⟩

/-- C10.  Every request other than Open, Opendir and Close leaves the
client's handle table unchanged as a map from handle strings to resource
kinds: the key list is identical and the kind stored under every key is
identical, whether the response is a success packet or a Status error. -/
theorem c10_table_frame {F D : Type} (fs : Fs F D) (t : Table F D)
    (pkt : SftpClientPacket) (hm : mutatesTable pkt = false) :
    keysOf (process_internal fs t pkt).handles = keysOf t ∧
    ∀ k, kindAt (process_internal fs t pkt).handles k = kindAt t k := by
  rcases process_internal_handles_not_mutating fs t pkt hm with he | ⟨k, w, v, hl, hk, he⟩
  · rw [he]; exact ⟨rfl, fun _ => rfl⟩
  · rw [he]; exact ⟨keysOf_updateH t k v, kindAt_updateH v hl hk⟩

/-- Witness for C10: a Readdir (success path, which rewrites the stored
directory resource) preserves keys and kinds. -/
theorem c10_table_frame_witness :
    mutatesTable (.Readdir 4 "d") = false ∧
    keysOf (process_internal trivFs ([("d", FsHandle.Dir ())] : Table Unit Unit)
        (.Readdir 4 "d")).handles = keysOf ([("d", FsHandle.Dir ())] : Table Unit Unit) ∧
    kindAt (process_internal trivFs ([("d", FsHandle.Dir ())] : Table Unit Unit)
        (.Readdir 4 "d")).handles "d"
      = kindAt ([("d", FsHandle.Dir ())] : Table Unit Unit) "d" :=
  ⟨rfl,
   (c10_table_frame trivFs [("d", FsHandle.Dir ())] (.Readdir 4 "d") rfl).1,
   (c10_table_frame trivFs [("d", FsHandle.Dir ())] (.Readdir 4 "d") rfl).2 "d"⟩

end Engine

end Thrusftp
